import Mathlib

/-!
# Verification of the clawlink messaging core

Shallow embedding of the clawlink server routes (Express + Drizzle, TypeScript)
into Lean 4, together with proofs and refutations of the frozen specification
claims.  Timestamps are naturals (milliseconds); database rows are structures;
the database is lists of rows; each HTTP handler becomes a pure function from
a store (plus request parameters and the current time) to a response, an
updated store and a list of emitted socket events.
-/

namespace Clawlink

/-- Agent identifiers (UUIDs in the source, opaque strings here,
compared with the string order that Postgres uses for the `<` in
`getOrCreateConversation`). -/
abbrev AgentId := String

/-- Group identifiers. -/
abbrev GroupId := String

/-- Message identifiers (group messages and DMs). -/
abbrev MsgId := String

/-- Result of an HTTP handler: an HTTP status with a payload on success, or
an HTTP status with an error string (the `{success:false, error}` body). -/
inductive ApiResult (α : Type) where
  | ok (status : Nat) (val : α)
  | err (status : Nat) (msg : String)
deriving DecidableEq, Repr

/-- A socket event emitted to a room (`io.to(room).emit(name, …)`); payloads
are not modelled, only the room/name pair. -/
structure Event where
  room : String
  name : String
deriving DecidableEq, Repr

/-- The room `agent:<id>`. -/
def agentRoom (a : AgentId) : String := "agent:" ++ a

/-- The room `group:<id>`. -/
def groupRoom (g : GroupId) : String := "group:" ++ g

/-- Lexicographic comparison of character lists by code point: the order
JavaScript's `<` imposes on the (ASCII) id strings the source compares. -/
def charListLt : List Char → List Char → Bool
  | [], [] => false
  | [], _ :: _ => true
  | _ :: _, [] => false
  | a :: as, b :: bs =>
      if a < b then true
      else if b < a then false
      else charListLt as bs

/-- The JavaScript string order `a < b` used on agent ids. -/
def strLt (a b : String) : Bool := charListLt a.data b.data

/-- JavaScript `String.prototype.trim`: strip whitespace from both ends. -/
def jsTrim (s : String) : String :=
  String.mk (((s.data.dropWhile Char.isWhitespace).reverse.dropWhile
    Char.isWhitespace).reverse)

/-! ## DM data model (`packages/api/src/db/schema.ts`) -/

/-- Row of `dm_conversations`.  `updatedAt`/`createdAt` bookkeeping columns
are not modelled; `disappearTimer` values are seconds. -/
structure DMConversation where
  agent1Id : AgentId
  agent2Id : AgentId
  disappearTimer : Option Nat
  disappearTimerSetBy : Option AgentId
  disappearTimerPendingApproval : Bool
  disappearTimerProposedValue : Option Nat
  disappearTimerProposedBy : Option AgentId
  agent1ClearedAt : Option Nat
  agent2ClearedAt : Option Nat
deriving DecidableEq, Repr

/-- Row of `direct_messages` (E2E fields `encrypted`/`ciphertext`/
`senderKeyId` are not needed by the claims and are omitted). -/
structure DirectMessage where
  id : MsgId
  fromAgentId : AgentId
  toAgentId : AgentId
  content : String
  replyToId : Option MsgId
  read : Bool
  expiresAt : Option Nat
  createdAt : Nat
deriving DecidableEq, Repr

/-- Row of `dm_reactions`. -/
structure DMReaction where
  messageId : MsgId
  agentId : AgentId
  emoji : String
deriving DecidableEq, Repr

/-- Row of `agent_blocks`. -/
structure AgentBlock where
  blockerId : AgentId
  blockedId : AgentId
deriving DecidableEq, Repr

/-- The durable state touched by the DM routes (`routes/dm.ts`): the set of
existing agents and the four DM tables. -/
structure DMStore where
  agents : List AgentId
  blocks : List AgentBlock
  conversations : List DMConversation
  directMessages : List DirectMessage
  dmReactions : List DMReaction
deriving DecidableEq, Repr

/-- A fresh `dm_conversations` row with all nullable columns at their
defaults (`disappear_timer_pending_approval` defaults to `false`). -/
def newConversation (id1 id2 : AgentId) : DMConversation :=
  { agent1Id := id1, agent2Id := id2
    disappearTimer := none, disappearTimerSetBy := none
    disappearTimerPendingApproval := false
    disappearTimerProposedValue := none, disappearTimerProposedBy := none
    agent1ClearedAt := none, agent2ClearedAt := none }

/-- `[id1, id2] = agent1Id < agent2Id ? [agent1Id, agent2Id] : [agent2Id, agent1Id]`
from `getOrCreateConversation`: store the smaller id first. -/
def canonPair (a b : AgentId) : AgentId × AgentId :=
  if strLt a b then (a, b) else (b, a)

/-- The `select … where agent1Id = id1 ∧ agent2Id = id2 limit 1` lookup. -/
def findConversation (s : DMStore) (id1 id2 : AgentId) : Option DMConversation :=
  s.conversations.find? (fun c => c.agent1Id = id1 && c.agent2Id = id2)

/-- `getOrCreateConversation(agent1Id, agent2Id)`: canonicalize the pair,
return the existing row or insert a fresh one. -/
def getOrCreateConversation (s : DMStore) (a b : AgentId) :
    DMConversation × DMStore :=
  let p := canonPair a b
  match findConversation s p.1 p.2 with
  | some c => (c, s)
  | none =>
      let c := newConversation p.1 p.2
      (c, { s with conversations := s.conversations ++ [c] })

/-- Replace the (unique) conversation row for the canonical pair of `c`
with `c'` (the source updates by primary key; rows are keyed here by their
canonical agent pair, which `getOrCreateConversation` keeps unique). -/
def updateConversation (s : DMStore) (c c' : DMConversation) : DMStore :=
  { s with conversations := s.conversations.map (fun r =>
      if r.agent1Id = c.agent1Id && r.agent2Id = c.agent2Id then c' else r) }

/-- `isBlocked(blockerId, blockedId)`: does a block row from `blockerId`
against `blockedId` exist? -/
def isBlocked (s : DMStore) (blockerId blockedId : AgentId) : Bool :=
  s.blocks.any (fun b => b.blockerId = blockerId && b.blockedId = blockedId)

/-- The side-specific `clearedAt` used by the thread handler:
`amAgent1 = myAgentId < targetAgentId` selects `agent1ClearedAt`,
otherwise `agent2ClearedAt`. -/
def clearedFor (c : DMConversation) (myId targetId : AgentId) : Option Nat :=
  if strLt myId targetId then c.agent1ClearedAt else c.agent2ClearedAt

/-! ## `POST /:agentId` — send a DM -/

/-- The `expiresAt` resolution in the send handler:
`conv.disappearTimer && !conv.disappearTimerPendingApproval` (a stored timer
of `0` is falsy in JS), then `new Date(Date.now() + conv.disappearTimer * 1000)`. -/
def resolveExpiresAt (conv : DMConversation) (now : Nat) : Option Nat :=
  if conv.disappearTimer.getD 0 ≠ 0 && !conv.disappearTimerPendingApproval then
    some (now + conv.disappearTimer.getD 0 * 1000)
  else none

/-- `POST /api/dm/:agentId` (send a DM).  Checks, in source order: non-empty
trimmed content (400), target agent exists (404), not a self-DM (400), the
target has not blocked the sender (403); then fetches/creates the
conversation, resolves `expiresAt`, validates `replyToId` against the same
conversation (404 if the reply target does not exist, 400 if it belongs to
another conversation), inserts the row and emits `dm:new` to `agent:<to>`. -/
def sendDM (s : DMStore) (now : Nat) (newId : MsgId)
    (myAgentId targetAgentId : AgentId) (content : String)
    (replyToId : Option MsgId) :
    ApiResult DirectMessage × DMStore × List Event :=
  if jsTrim content = "" then
    (.err 400 "Message content is required", s, [])
  else if !s.agents.contains targetAgentId then
    (.err 404 "Agent not found", s, [])
  else if targetAgentId = myAgentId then
    (.err 400 "Cannot send DM to yourself", s, [])
  else if isBlocked s targetAgentId myAgentId then
    (.err 403 "You cannot message this agent", s, [])
  else
    let cs := getOrCreateConversation s myAgentId targetAgentId
    let conv := cs.1
    let s1 := cs.2
    let expiresAt := resolveExpiresAt conv now
    let doInsert : ApiResult DirectMessage × DMStore × List Event :=
      let dm : DirectMessage :=
        { id := newId, fromAgentId := myAgentId, toAgentId := targetAgentId
          content := jsTrim content, replyToId := replyToId
          read := false, expiresAt := expiresAt, createdAt := now }
      (.ok 201 dm, { s1 with directMessages := s1.directMessages ++ [dm] },
        [⟨agentRoom targetAgentId, "dm:new"⟩])
    match replyToId with
    | none => doInsert
    | some rid =>
        match s1.directMessages.find? (fun m => m.id = rid) with
        | none => (.err 404 "Reply message not found", s1, [])
        | some replyMsg =>
            if (replyMsg.fromAgentId = myAgentId && replyMsg.toAgentId = targetAgentId)
               || (replyMsg.fromAgentId = targetAgentId && replyMsg.toAgentId = myAgentId) then
              doInsert
            else
              (.err 400 "Can only reply to messages in this conversation", s1, [])

/-! ## `GET /:agentId` — DM thread -/

/-- Descending insertion by a numeric key (the `orderBy(desc(createdAt))`
of the thread query). -/
def insertByDescCreated (x : DirectMessage) : List DirectMessage → List DirectMessage
  | [] => [x]
  | y :: ys =>
      if y.createdAt < x.createdAt then x :: y :: ys
      else y :: insertByDescCreated x ys

/-- Sort newest-first by `createdAt`. -/
def sortByDescCreated (l : List DirectMessage) : List DirectMessage :=
  l.foldr insertByDescCreated []

/-- The post-query filter of the thread handler: drop messages created
before the caller's `clearedAt` (non-null `Date`s are truthy in JS, so the
guard is exactly "clearedAt set and createdAt < clearedAt") and messages
whose `expiresAt` is in the past. -/
def visibleInThread (myClearedAt : Option Nat) (now : Nat) (m : DirectMessage) : Bool :=
  (match myClearedAt with
   | some c => decide ¬ (m.createdAt < c)
   | none => true)
  &&
  (match m.expiresAt with
   | some e => decide ¬ (e < now)
   | none => true)

/-- The pure listing pipeline of `GET /api/dm/:agentId`: both-direction
filter, newest-first order, `limit`, cleared/expiry filter, then `reverse`
into chronological order. -/
def listDMCore (msgs : List DirectMessage) (myAgentId targetAgentId : AgentId)
    (myClearedAt : Option Nat) (now : Nat) (limit : Nat) : List DirectMessage :=
  let base := msgs.filter (fun m =>
    (m.fromAgentId = myAgentId && m.toAgentId = targetAgentId)
    || (m.fromAgentId = targetAgentId && m.toAgentId = myAgentId))
  let newest := (sortByDescCreated base).take limit
  (newest.filter (visibleInThread myClearedAt now)).reverse

/-- `GET /api/dm/:agentId`: fetch/create the conversation (before any self
check — there is none), list the visible messages, then mark the messages
received from the target as read.  Returns the chronological message list
and the updated store. -/
def listDM (s : DMStore) (now : Nat) (myAgentId targetAgentId : AgentId)
    (limit : Nat) : List DirectMessage × DMStore :=
  let cs := getOrCreateConversation s myAgentId targetAgentId
  let conv := cs.1
  let s1 := cs.2
  let myClearedAt := clearedFor conv myAgentId targetAgentId
  let out := listDMCore s1.directMessages myAgentId targetAgentId myClearedAt now limit
  let s2 := { s1 with directMessages := s1.directMessages.map (fun m =>
    if m.fromAgentId = targetAgentId && m.toAgentId = myAgentId && !m.read then
      { m with read := true }
    else m) }
  (out, s2)

/-! ## `DELETE /:agentId/clear` — per-side clear -/

/-- `DELETE /api/dm/:agentId/clear`: set the caller's side of `clearedAt`
to now (`agent1ClearedAt` iff `myAgentId < targetAgentId`) and emit
`dm:cleared` to the target. -/
def clearConversation (s : DMStore) (now : Nat)
    (myAgentId targetAgentId : AgentId) :
    ApiResult Unit × DMStore × List Event :=
  let cs := getOrCreateConversation s myAgentId targetAgentId
  let conv := cs.1
  let s1 := cs.2
  let conv' :=
    if strLt myAgentId targetAgentId then { conv with agent1ClearedAt := some now }
    else { conv with agent2ClearedAt := some now }
  (.ok 200 (), updateConversation s1 conv conv',
    [⟨agentRoom targetAgentId, "dm:cleared"⟩])

/-! ## `POST /:agentId/disappear` — timer negotiation -/

/-- Result of the disappear handler: the response `status` string
(`"disabled"`, `"enabled"` or `"proposed"`), the updated store and the
emitted events. -/
structure DisappearResult where
  status : String
  store : DMStore
  events : List Event
deriving Repr

/-- `POST /api/dm/:agentId/disappear`.  `timer = 0` models the falsy
`!timer || timer === 0` disable branch.  Otherwise: if a proposal from the
*other* side is pending, a matching value enables the timer (events to both
sides), a different value replaces the proposal; with no pending proposal
from the other side the caller's proposal is created/overwritten. -/
def setDisappear (s : DMStore) (myAgentId targetAgentId : AgentId)
    (timer : Nat) : DisappearResult :=
  let cs := getOrCreateConversation s myAgentId targetAgentId
  let conv := cs.1
  let s1 := cs.2
  if timer = 0 then
    let conv' := { conv with
      disappearTimer := none, disappearTimerSetBy := none
      disappearTimerPendingApproval := false
      disappearTimerProposedValue := none, disappearTimerProposedBy := none }
    { status := "disabled", store := updateConversation s1 conv conv'
      events := [⟨agentRoom targetAgentId, "dm:disappear:disabled"⟩] }
  else if conv.disappearTimerPendingApproval
          && conv.disappearTimerProposedBy ≠ some myAgentId then
    if conv.disappearTimerProposedValue = some timer then
      let conv' := { conv with
        disappearTimer := some timer
        disappearTimerSetBy := conv.disappearTimerProposedBy
        disappearTimerPendingApproval := false
        disappearTimerProposedValue := none, disappearTimerProposedBy := none }
      { status := "enabled", store := updateConversation s1 conv conv'
        events := [⟨agentRoom targetAgentId, "dm:disappear:enabled"⟩,
                   ⟨agentRoom myAgentId, "dm:disappear:enabled"⟩] }
    else
      let conv' := { conv with
        disappearTimerProposedValue := some timer
        disappearTimerProposedBy := some myAgentId }
      { status := "proposed", store := updateConversation s1 conv conv'
        events := [⟨agentRoom targetAgentId, "dm:disappear:proposed"⟩] }
  else
    let conv' := { conv with
      disappearTimerPendingApproval := true
      disappearTimerProposedValue := some timer
      disappearTimerProposedBy := some myAgentId }
    { status := "proposed", store := updateConversation s1 conv conv'
      events := [⟨agentRoom targetAgentId, "dm:disappear:proposed"⟩] }

/-- The abstract states of the disappearing-timer state machine of the
specification (§4.6): `Disabled`, `Proposed(t, by)`, `Active(t)`. -/
inductive TimerState where
  | disabled
  | proposed (t : Nat) (proposer : AgentId)
  | active (t : Nat)
deriving DecidableEq, Repr

/-- Abstraction from a stored conversation row to the specification's
state machine: a pending approval is a proposal; otherwise a (non-zero)
stored timer is active; otherwise disabled. -/
def timerState (c : DMConversation) : TimerState :=
  if c.disappearTimerPendingApproval then
    .proposed (c.disappearTimerProposedValue.getD 0)
      (c.disappearTimerProposedBy.getD "")
  else
    match c.disappearTimer with
    | some t => if t ≠ 0 then .active t else .disabled
    | none => .disabled

/-- The conversation row currently stored for the pair `(a, b)`. -/
def getConv (s : DMStore) (a b : AgentId) : Option DMConversation :=
  findConversation s (canonPair a b).1 (canonPair a b).2

/-! ## `DELETE /:messageId/reactions/:emoji` — unreact, with effect trace -/

/-- Observable effects of the unreact handler, in execution order. -/
inductive Effect where
  | emit (room : String) (event : String)
  | deleteReactionRow (messageId : MsgId) (agentId : AgentId) (emoji : String)
deriving DecidableEq, Repr

/-- `DELETE /api/dm/:messageId/reactions/:emoji`: if the message exists,
first emit `dm:reaction:removed` to the other participant, then delete the
reaction row.  The trace records the effects in the order the source
performs them (emit before delete). -/
def unreactDM (s : DMStore) (myAgentId : AgentId) (messageId : MsgId)
    (emoji : String) : DMStore × List Effect :=
  let preEffects : List Effect :=
    match s.directMessages.find? (fun m => m.id = messageId) with
    | some message =>
        let recipientId :=
          if message.fromAgentId = myAgentId then message.toAgentId
          else message.fromAgentId
        [.emit (agentRoom recipientId) "dm:reaction:removed"]
    | none => []
  let s' := { s with dmReactions := s.dmReactions.filter (fun r =>
    !(r.messageId = messageId && r.agentId = myAgentId && r.emoji = emoji)) }
  (s', preEffects ++ [.deleteReactionRow messageId myAgentId emoji])

/-! ## Claim verification (`routes/auth.ts`, `POST /claim/:token/verify`) -/

/-- Row of `agents` (the columns the claim flow reads or writes). -/
structure AgentRow where
  id : AgentId
  name : String
  handle : String
  apiKey : String
  claimToken : Option String
  verificationCode : Option String
  claimed : Bool
  claimedBy : Option String
  claimedByTwitterId : Option String
deriving DecidableEq, Repr

/-- Row of `agent_badges` (slug plus awarding metadata). -/
structure AgentBadgeRow where
  agentId : AgentId
  badgeSlug : String
  awardedBy : String
deriving DecidableEq, Repr

/-- The durable state touched by the claim flow. -/
structure AuthStore where
  agents : List AgentRow
  agentBadges : List AgentBadgeRow
deriving DecidableEq, Repr

/-- Outcome of the external Twitter collaborator as seen by the handler:
`dev` models an unset `TWITTER_BEARER_TOKEN` (verification skipped),
`reachable found userId` models a successful search (tweet found or not,
plus the optional user-id lookup), `apiError` a non-OK search response. -/
inductive TwitterBackend where
  | dev
  | reachable (found : Bool) (userId : Option String)
  | apiError
deriving DecidableEq, Repr

/-- `twitterHandle.replace('@', '')`. -/
def stripAt (h : String) : String := h.replace "@" ""

/-- `POST /api/auth/claim/:token/verify`.  In source order: require a
handle (400); look the agent up by `claimToken` (404 `Invalid claim token`);
reject if already claimed (400 `Agent already claimed`); consult the
external backend (dev mode skips; API failure is 502; missing tweet is
400); then set `claimed`, store the claimant, null `claimToken` and
`verificationCode`, and award the `verified` badge idempotently
(`onConflictDoNothing`). -/
def verifyClaim (backend : TwitterBackend) (s : AuthStore)
    (token twitterHandle : String) : ApiResult Unit × AuthStore :=
  if twitterHandle = "" then
    (.err 400 "Twitter handle is required", s)
  else
    match s.agents.find? (fun a => a.claimToken = some token) with
    | none => (.err 404 "Invalid claim token", s)
    | some agent =>
        if agent.claimed then
          (.err 400 "Agent already claimed", s)
        else
          match backend with
          | .apiError => (.err 502 "Failed to verify with Twitter", s)
          | .reachable false _ =>
              (.err 400 "Verification tweet not found. Please post the tweet and try again.", s)
          | b =>
              let twitterUserId : Option String :=
                match b with
                | .reachable _ uid => uid
                | _ => none
              let agents' := s.agents.map (fun a =>
                if a.id = agent.id then
                  { a with claimed := true
                           claimedBy := some (stripAt twitterHandle)
                           claimedByTwitterId := twitterUserId
                           claimToken := none
                           verificationCode := none }
                else a)
              let badges' :=
                if s.agentBadges.any (fun ab =>
                    ab.agentId = agent.id && ab.badgeSlug = "verified") then
                  s.agentBadges
                else
                  s.agentBadges ++ [⟨agent.id, "verified", "system"⟩]
              (.ok 200 (), { agents := agents', agentBadges := badges' })

/-! ## Group model (`routes/groups.ts`, `routes/messages.ts`,
`routes/observer.ts`, `utils/permissions.ts`) -/

/-- Member roles. -/
inductive Role where
  | admin
  | moderator
  | member
deriving DecidableEq, Repr

/-- `ROLE_HIERARCHY`: `admin=3 > moderator=2 > member=1`. -/
def roleLevel : Role → Nat
  | .admin => 3
  | .moderator => 2
  | .member => 1

/-- `hasPermission(userRole, requiredRole)`: role level is at least the
required level. -/
def hasPermission (userRole requiredRole : Role) : Bool :=
  roleLevel requiredRole ≤ roleLevel userRole

/-- `canModifyRole(userRole, targetRole)`: strictly higher level only. -/
def canModifyRole (userRole targetRole : Role) : Bool :=
  roleLevel targetRole < roleLevel userRole

/-- The nine permission keys. -/
inductive PermKey where
  | renameGroup | editDescription | editAvatar | deleteGroup
  | removeMembers | setRoles | inviteMembers | pinMessages | deleteAnyMessage
deriving DecidableEq, Repr

/-- `DEFAULT_PERMISSIONS`. -/
def defaultPermission : PermKey → Role
  | .renameGroup => .admin
  | .editDescription => .admin
  | .editAvatar => .admin
  | .deleteGroup => .admin
  | .removeMembers => .moderator
  | .setRoles => .admin
  | .inviteMembers => .member
  | .pinMessages => .moderator
  | .deleteAnyMessage => .moderator

/-- Row of `groups` (avatar column omitted; not used by the claims). -/
structure GroupRow where
  id : GroupId
  name : String
  slug : String
  description : Option String
  isPublic : Bool
  createdById : AgentId
deriving DecidableEq, Repr

/-- Row of `group_members`. -/
structure MemberRow where
  groupId : GroupId
  agentId : AgentId
  role : Role
deriving DecidableEq, Repr

/-- Row of `group_permissions` (one per group, nine per-action minimum
roles). -/
structure PermRow where
  groupId : GroupId
  renameGroup : Role
  editDescription : Role
  editAvatar : Role
  deleteGroup : Role
  removeMembers : Role
  setRoles : Role
  inviteMembers : Role
  pinMessages : Role
  deleteAnyMessage : Role
deriving DecidableEq, Repr

/-- Select the column of a permission row named by a key. -/
def PermRow.get (p : PermRow) : PermKey → Role
  | .renameGroup => p.renameGroup
  | .editDescription => p.editDescription
  | .editAvatar => p.editAvatar
  | .deleteGroup => p.deleteGroup
  | .removeMembers => p.removeMembers
  | .setRoles => p.setRoles
  | .inviteMembers => p.inviteMembers
  | .pinMessages => p.pinMessages
  | .deleteAnyMessage => p.deleteAnyMessage

/-- Row of `messages` (group messages). -/
structure GMsgRow where
  id : MsgId
  groupId : GroupId
  agentId : AgentId
  content : String
  replyToId : Option MsgId
  createdAt : Nat
deriving DecidableEq, Repr

/-- The durable state touched by the group and group-message routes. -/
structure GroupState where
  agents : List AgentId
  groups : List GroupRow
  members : List MemberRow
  perms : List PermRow
  messages : List GMsgRow
deriving DecidableEq, Repr

/-- `getMemberRole`: the role of the first membership row for
`(groupId, agentId)`, if any. -/
def getMemberRole (s : GroupState) (groupId : GroupId) (agentId : AgentId) :
    Option Role :=
  (s.members.find? (fun m => m.groupId = groupId && m.agentId = agentId)).map
    (·.role)

/-- Result record of `checkGroupPermission` (the `reason` string is not
modelled). -/
structure PermCheck where
  allowed : Bool
  userRole : Option Role
  requiredRole : Role
deriving DecidableEq, Repr

/-- `checkGroupPermission(groupId, agentId, permission)`: non-members are
denied; otherwise the required role comes from the per-group override row
(fallback to the defaults) and `hasPermission` decides. -/
def checkGroupPermission (s : GroupState) (groupId : GroupId)
    (agentId : AgentId) (key : PermKey) : PermCheck :=
  match getMemberRole s groupId agentId with
  | none => { allowed := false, userRole := none, requiredRole := defaultPermission key }
  | some userRole =>
      let requiredRole :=
        match s.perms.find? (fun p => p.groupId = groupId) with
        | some p => p.get key
        | none => defaultPermission key
      { allowed := hasPermission userRole requiredRole
        userRole := some userRole, requiredRole := requiredRole }

/-- `isAdmin`. -/
def isAdmin (s : GroupState) (groupId : GroupId) (agentId : AgentId) : Bool :=
  getMemberRole s groupId agentId = some Role.admin

/-- `isMember`. -/
def isMember (s : GroupState) (groupId : GroupId) (agentId : AgentId) : Bool :=
  (s.members.find? (fun m => m.groupId = groupId && m.agentId = agentId)).isSome

/-- A character kept verbatim by the slug regex `[^a-z0-9]+`. -/
def slugChar (c : Char) : Bool :=
  ('a' ≤ c && c ≤ 'z') || ('0' ≤ c && c ≤ '9')

/-- Replace every non-slug character by `'-'`. -/
def dashify (l : List Char) : List Char :=
  l.map (fun c => if slugChar c then c else '-')

/-- Collapse runs of `'-'` to a single `'-'` (the `+` of the regex). -/
def collapseDashes : List Char → List Char
  | [] => []
  | [c] => [c]
  | a :: b :: rest =>
      if a = '-' && b = '-' then collapseDashes (b :: rest)
      else a :: collapseDashes (b :: rest)

/-- Strip leading and trailing dashes (`.replace(/^-|-$/g, '')`). -/
def trimDashes (l : List Char) : List Char :=
  ((l.dropWhile (· = '-')).reverse.dropWhile (· = '-')).reverse

/-- The slug derivation of the create-group handler: lowercase, replace
runs of non-alphanumerics with `-`, strip edge dashes. -/
def slugify (name : String) : String :=
  String.mk (trimDashes (collapseDashes (dashify name.toLower.data)))

/-- `POST /api/groups` (create).  Requires a non-empty name (400), a fresh
slug (409); inserts the group and an `admin` membership for the creator and
broadcasts `group:created`. -/
def createGroup (s : GroupState) (newGid : GroupId) (agentId : AgentId)
    (name : String) (description : Option String) (isPublic : Bool) :
    ApiResult GroupRow × GroupState × List Event :=
  if name = "" then
    (.err 400 "Group name is required", s, [])
  else
    let slug := slugify name
    if s.groups.any (fun g => g.slug = slug) then
      (.err 409 "A group with this name already exists", s, [])
    else
      let g : GroupRow :=
        { id := newGid, name := name, slug := slug, description := description
          isPublic := isPublic, createdById := agentId }
      (.ok 201 g,
        { s with groups := s.groups ++ [g]
                 members := s.members ++ [⟨newGid, agentId, .admin⟩] },
        [⟨"*", "group:created"⟩])

/-- `POST /api/groups/:groupId/join`: group must exist (404), caller must
not already be a member (400); inserts a `member` membership. -/
def joinGroup (s : GroupState) (groupId : GroupId) (agentId : AgentId) :
    ApiResult Unit × GroupState × List Event :=
  if !s.groups.any (fun g => g.id = groupId) then
    (.err 404 "Group not found", s, [])
  else if isMember s groupId agentId then
    (.err 400 "Already a member of this group", s, [])
  else
    (.ok 200 (),
      { s with members := s.members ++ [⟨groupId, agentId, .member⟩] },
      [⟨groupRoom groupId, "member:joined"⟩])

/-- `POST /api/groups/:groupId/leave`: caller must be a member (400);
deletes the membership row.  There is no guard on the member's role. -/
def leaveGroup (s : GroupState) (groupId : GroupId) (agentId : AgentId) :
    ApiResult Unit × GroupState × List Event :=
  if !isMember s groupId agentId then
    (.err 400 "Not a member of this group", s, [])
  else
    (.ok 200 (),
      { s with members := s.members.filter (fun m =>
          !(m.groupId = groupId && m.agentId = agentId)) },
      [⟨groupRoom groupId, "member:left"⟩])

/-- `DELETE /api/groups/:groupId/members/:targetAgentId`: self-removal is
rejected (400), the `removeMembers` permission is required (403), the
target must be a member (404) and must have a strictly lower role (403);
then the membership rows for the target are deleted. -/
def removeMember (s : GroupState) (groupId : GroupId)
    (agentId targetAgentId : AgentId) :
    ApiResult Unit × GroupState × List Event :=
  if targetAgentId = agentId then
    (.err 400 "Use /leave to leave the group", s, [])
  else
    let perm := checkGroupPermission s groupId agentId .removeMembers
    if !perm.allowed then
      (.err 403 "permission denied", s, [])
    else
      match getMemberRole s groupId targetAgentId with
      | none => (.err 404 "Target is not a member of this group", s, [])
      | some targetRole =>
          if !canModifyRole (perm.userRole.getD .member) targetRole then
            (.err 403 "Cannot remove a member with equal or higher role", s, [])
          else
            (.ok 200 (),
              { s with members := s.members.filter (fun m =>
                  !(m.groupId = groupId && m.agentId = targetAgentId)) },
              [⟨groupRoom groupId, "member:removed"⟩])

/-- `PATCH /api/groups/:groupId/members/:targetAgentId/role`: changing
one's own role is rejected (400), the `setRoles` permission is required
(403), the target must be a member (404) with a strictly lower role (403),
and the new role must be strictly lower than the actor's (403); then the
target's membership rows are updated. -/
def setMemberRole (s : GroupState) (groupId : GroupId)
    (agentId targetAgentId : AgentId) (newRole : Role) :
    ApiResult Unit × GroupState × List Event :=
  if targetAgentId = agentId then
    (.err 400 "Cannot change your own role", s, [])
  else
    let perm := checkGroupPermission s groupId agentId .setRoles
    if !perm.allowed then
      (.err 403 "permission denied", s, [])
    else
      match getMemberRole s groupId targetAgentId with
      | none => (.err 404 "Target is not a member of this group", s, [])
      | some targetRole =>
          if !canModifyRole (perm.userRole.getD .member) targetRole then
            (.err 403 "Cannot modify role of a member with equal or higher role", s, [])
          else if !canModifyRole (perm.userRole.getD .member) newRole then
            (.err 403 "Cannot set a role equal to or higher than your own", s, [])
          else
            (.ok 200 (),
              { s with members := s.members.map (fun m =>
                  if m.groupId = groupId && m.agentId = targetAgentId then
                    { m with role := newRole }
                  else m) },
              [⟨groupRoom groupId, "member:roleChanged"⟩])

/-! ## Group message listing and sending (`routes/messages.ts`,
`routes/observer.ts`) -/

/-- Descending insertion by `createdAt` for group messages. -/
def insertGByDescCreated (x : GMsgRow) : List GMsgRow → List GMsgRow
  | [] => [x]
  | y :: ys =>
      if y.createdAt < x.createdAt then x :: y :: ys
      else y :: insertGByDescCreated x ys

/-- Sort group messages newest-first by `createdAt`
(`orderBy(desc(createdAt))`). -/
def sortGByDescCreated (l : List GMsgRow) : List GMsgRow :=
  l.foldr insertGByDescCreated []

/-- The message rows of a group whose author still exists (the
`innerJoin` with `agents` in both listing queries). -/
def groupRows (s : GroupState) (groupId : GroupId) : List GMsgRow :=
  s.messages.filter (fun m =>
    m.groupId = groupId && s.agents.contains m.agentId)

/-- The row-selection pipeline shared by both message-listing routes:
messages of the group whose author still exists (the `innerJoin` with
`agents`), newest first, truncated to `limit`, then reversed into
chronological order.  The enrichment steps (reactions, reply previews,
badges) map each row to a richer record one-to-one and change neither the
count nor the order, so they are not modelled. -/
def selectGroupMessages (s : GroupState) (groupId : GroupId) (limit : Nat) :
    List GMsgRow :=
  ((sortGByDescCreated (groupRows s groupId)).take limit).reverse

/-- `GET /api/messages/:groupId` (authenticated listing): membership is
required (403); the raw `limit` query value is applied with **no** clamp
(`.limit(Number(limit))`), default 50 supplied by the caller. -/
def listGroupMessages (s : GroupState) (groupId : GroupId)
    (agentId : AgentId) (limit : Nat) : ApiResult (List GMsgRow) :=
  if !isMember s groupId agentId then
    .err 403 "You must join this group to view messages"
  else
    .ok 200 (selectGroupMessages s groupId limit)

/-- `GET /api/observer/groups/:groupId/messages`:
`limit = Math.min(parseInt(query.limit) || 50, 100)` (an absent or zero
value falls back to 50 before the clamp); the group must be public (404). -/
def observerListMessages (s : GroupState) (groupId : GroupId)
    (limitParam : Option Nat) : ApiResult (List GMsgRow) :=
  let limit := min (match limitParam with
                    | none => 50
                    | some 0 => 50
                    | some n => n) 100
  match s.groups.find? (fun g => g.id = groupId && g.isPublic) with
  | none => .err 404 "Group not found or is private"
  | some _ => .ok 200 (selectGroupMessages s groupId limit)

/-- `POST /api/messages/:groupId` (send a group message): non-empty trimmed
content (400) and membership (403) are required; the row is inserted with
`replyToId` taken verbatim from the request body — the handler performs
**no** validation of `replyToId`. -/
def sendGroupMessage (s : GroupState) (now : Nat) (newId : MsgId)
    (groupId : GroupId) (agentId : AgentId) (content : String)
    (replyToId : Option MsgId) :
    ApiResult GMsgRow × GroupState × List Event :=
  if jsTrim content = "" then
    (.err 400 "Message content is required", s, [])
  else if !isMember s groupId agentId then
    (.err 403 "You must join this group to send messages", s, [])
  else
    let m : GMsgRow :=
      { id := newId, groupId := groupId, agentId := agentId
        content := jsTrim content, replyToId := replyToId, createdAt := now }
    (.ok 201 m, { s with messages := s.messages ++ [m] },
      [⟨groupRoom groupId, "message:new"⟩])

/-! ## Derived invariants and abstractions -/

/-- Every group in the state has at least one member with role `admin`
(spec §3 Group invariant / §8 universal invariant 1). -/
def groupsHaveAdmin (s : GroupState) : Prop :=
  ∀ g ∈ s.groups, ∃ m ∈ s.members, m.groupId = g.id ∧ m.role = Role.admin

/-- At most one membership row per `(groupId, agentId)` pair — maintained
by the join handler's duplicate check on every reachable state. -/
def membersUnique (s : GroupState) : Prop :=
  ∀ m1 ∈ s.members, ∀ m2 ∈ s.members,
    m1.groupId = m2.groupId → m1.agentId = m2.agentId → m1 = m2

/-- Every conversation row stores its participant pair in canonical
(non-decreasing) order: never `agent2Id < agent1Id` in the JS string
order. -/
def convPairsOrdered (s : DMStore) : Prop :=
  ∀ c ∈ s.conversations, strLt c.agent2Id c.agent1Id = false

/-- At most one agent row holds a given claim token (the `unique`
constraint on `agents.claim_token`). -/
def claimTokenUnique (s : AuthStore) (token : String) : Prop :=
  ∀ a1 ∈ s.agents, ∀ a2 ∈ s.agents,
    a1.claimToken = some token → a2.claimToken = some token → a1 = a2

instance (s : GroupState) : Decidable (groupsHaveAdmin s) := by
  unfold groupsHaveAdmin; infer_instance

instance (s : GroupState) : Decidable (membersUnique s) := by
  unfold membersUnique; infer_instance

instance (s : DMStore) : Decidable (convPairsOrdered s) := by
  unfold convPairsOrdered; infer_instance

instance (s : AuthStore) (token : String) : Decidable (claimTokenUnique s token) := by
  unfold claimTokenUnique; infer_instance

/-! ## Concrete stores used by witnesses and counterexamples -/

/-- An empty DM store in which only agent `"a"` exists. -/
def soloDMStore : DMStore :=
  { agents := ["a"], blocks := [], conversations := []
    directMessages := [], dmReactions := [] }

/-- Two agents `"a"`, `"b"`; `"a"` has blocked `"b"`; no other state. -/
def blockDMStore : DMStore :=
  { agents := ["a", "b"], blocks := [⟨"a", "b"⟩], conversations := []
    directMessages := [], dmReactions := [] }

/-- One DM `m1` from `"A"` to `"B"` carrying a 👍 reaction by `"A"`. -/
def reactionDMStore : DMStore :=
  { agents := ["A", "B"], blocks := [], conversations := []
    directMessages := [⟨"m1", "A", "B", "hi", none, false, none, 1⟩]
    dmReactions := [⟨"m1", "A", "👍"⟩] }

/-- A conversation between `"a"` and `"b"` with a pending proposal of
3600 seconds by `"b"`. -/
def pendingConv : DMConversation :=
  { agent1Id := "a", agent2Id := "b"
    disappearTimer := none, disappearTimerSetBy := none
    disappearTimerPendingApproval := true
    disappearTimerProposedValue := some 3600
    disappearTimerProposedBy := some "b"
    agent1ClearedAt := none, agent2ClearedAt := none }

/-- DM store holding just `pendingConv`. -/
def pendingDMStore : DMStore :=
  { agents := ["a", "b"], blocks := [], conversations := [pendingConv]
    directMessages := [], dmReactions := [] }

/-- A conversation between `"a"` and `"b"` with an active 7200-second
timer. -/
def activeConv : DMConversation :=
  { agent1Id := "a", agent2Id := "b"
    disappearTimer := some 7200, disappearTimerSetBy := some "a"
    disappearTimerPendingApproval := false
    disappearTimerProposedValue := none, disappearTimerProposedBy := none
    agent1ClearedAt := none, agent2ClearedAt := none }

/-- DM store holding `activeConv` and nothing else. -/
def activeDMStore : DMStore :=
  { agents := ["a", "b"], blocks := [], conversations := [activeConv]
    directMessages := [], dmReactions := [] }

/-- Three DMs between `"a"` and `"b"` at times 1, 2, 3 (scenario §8.5). -/
def threeMsgDMStore : DMStore :=
  { agents := ["a", "b"], blocks := [], conversations := []
    directMessages :=
      [⟨"d1", "a", "b", "one", none, false, none, 1⟩,
       ⟨"d2", "b", "a", "two", none, false, none, 2⟩,
       ⟨"d3", "a", "b", "three", none, false, none, 3⟩]
    dmReactions := [] }

/-- One unclaimed agent holding claim token `"tok"`. -/
def unclaimedAuthStore : AuthStore :=
  { agents := [{ id := "a1", name := "Ava", handle := "ava", apiKey := "clk_k"
                 claimToken := some "tok"
                 verificationCode := some "reef-X4B2"
                 claimed := false, claimedBy := none
                 claimedByTwitterId := none }]
    agentBadges := [] }

/-- An empty group state where only agent `"a"` exists. -/
def soloGroupState : GroupState :=
  { agents := ["a"], groups := [], members := [], perms := [], messages := [] }

/-- The state after `"a"` creates group `"g1"` in `soloGroupState`. -/
def createdGroupState : GroupState :=
  (createGroup soloGroupState "g1" "a" "Cool Group" none true).2.1

/-- A single-admin group `"g"` with members `"a"` (admin) and `"b"`
(member). -/
def twoMemberGroupState : GroupState :=
  { agents := ["a", "b"]
    groups := [⟨"g", "G", "g", none, true, "a"⟩]
    members := [⟨"g", "a", .admin⟩, ⟨"g", "b", .member⟩]
    perms := [], messages := [] }

/-- A message row of group `"g"` used for the listing counterexample:
all rows share id `"m"` (ids play no part in the listing pipeline) and
`createdAt` descends from 201. -/
def c7Msg (i : Nat) : GMsgRow :=
  { id := "m", groupId := "g", agentId := "a", content := "x"
    replyToId := none, createdAt := 201 - i }

/-- Group `"g"` with member `"a"` and 101 messages. -/
def manyMsgGroupState : GroupState :=
  { agents := ["a"]
    groups := [⟨"g", "G", "g", none, true, "a"⟩]
    members := [⟨"g", "a", .member⟩]
    perms := []
    messages := (List.range 101).map c7Msg }

/-- Two groups `"g1"`, `"g2"`; `"a"` is a member of `"g1"` only; one
message `m2` lives in `"g2"`. -/
def twoGroupState : GroupState :=
  { agents := ["a"]
    groups := [⟨"g1", "G1", "g1", none, true, "a"⟩,
               ⟨"g2", "G2", "g2", none, true, "a"⟩]
    members := [⟨"g1", "a", .member⟩]
    perms := []
    messages := [⟨"m2", "g2", "a", "other", none, 1⟩] }

/-! # Theorems -/

/-! ## Helper lemmas on the string order -/

theorem charListLt_irrefl (l : List Char) : charListLt l l = false := by
  induction l with
  | nil => rfl
  | cons a as ih => simp [charListLt, ih]

theorem charListLt_asymm : ∀ {l1 l2 : List Char},
    charListLt l1 l2 = true → charListLt l2 l1 = false
  | [], [], h => by simp [charListLt] at h
  | [], _ :: _, _ => by simp [charListLt]
  | _ :: _, [], h => by simp [charListLt] at h
  | a :: as, b :: bs, h => by
      simp only [charListLt] at h ⊢
      rcases lt_trichotomy a b with hab | hab | hab
      · simp [hab, not_lt_of_gt hab]
      · subst hab
        simp only [lt_irrefl, if_false] at h ⊢
        exact charListLt_asymm h
      · simp [hab, not_lt_of_gt hab] at h

theorem charListLt_eq_of_not_lt : ∀ {l1 l2 : List Char},
    charListLt l1 l2 = false → charListLt l2 l1 = false → l1 = l2
  | [], [], _, _ => rfl
  | [], _ :: _, h1, _ => by simp [charListLt] at h1
  | _ :: _, [], _, h2 => by simp [charListLt] at h2
  | a :: as, b :: bs, h1, h2 => by
      simp only [charListLt] at h1 h2
      rcases lt_trichotomy a b with hab | hab | hab
      · simp [hab] at h1
      · subst hab
        simp only [lt_irrefl, if_false] at h1 h2
        exact congrArg (a :: ·) (charListLt_eq_of_not_lt h1 h2)
      · simp [hab, not_lt_of_gt hab] at h2

theorem strLt_irrefl (a : String) : strLt a a = false :=
  charListLt_irrefl a.data

theorem strLt_asymm {a b : String} (h : strLt a b = true) : strLt b a = false :=
  charListLt_asymm h

theorem strLt_eq_of_not_lt {a b : String} (h1 : strLt a b = false)
    (h2 : strLt b a = false) : a = b := by
  cases a; cases b
  exact congrArg String.mk (charListLt_eq_of_not_lt h1 h2)

theorem strLt_total_of_ne {a b : String} (h : a ≠ b) :
    strLt a b = true ∨ strLt b a = true := by
  cases h1 : strLt a b with
  | true => exact Or.inl rfl
  | false =>
      cases h2 : strLt b a with
      | true => exact Or.inr rfl
      | false => exact absurd (strLt_eq_of_not_lt h1 h2) h

theorem canonPair_comm {a b : AgentId} (h : a ≠ b) :
    canonPair a b = canonPair b a := by
  unfold canonPair
  rcases strLt_total_of_ne h with hl | hl
  · simp [hl, strLt_asymm hl]
  · simp [hl, strLt_asymm hl]

theorem canonPair_not_lt (a b : AgentId) :
    strLt (canonPair a b).2 (canonPair a b).1 = false := by
  unfold canonPair
  cases h : strLt a b with
  | true => simpa using strLt_asymm h
  | false => simpa using h

theorem canonPair_lt_of_ne {a b : AgentId} (h : a ≠ b) :
    strLt (canonPair a b).1 (canonPair a b).2 = true := by
  unfold canonPair
  rcases strLt_total_of_ne h with hl | hl
  · simp [hl]
  · cases hab : strLt a b with
    | true => simpa using hab
    | false => simpa [hab] using hl

/-! ## Helper lemmas on conversation lookup and update -/

theorem find?_append_none {α : Type} (p : α → Bool) :
    ∀ (l1 l2 : List α), l1.find? p = none → (l1 ++ l2).find? p = l2.find? p := by
  intro l1 l2 h
  induction l1 with
  | nil => rfl
  | cons a as ih =>
      simp only [List.find?] at h ⊢
      cases hp : p a with
      | true => simp [hp] at h
      | false =>
          simp only [hp] at h ⊢
          exact ih h

theorem getOrCreate_found (s : DMStore) (a b : AgentId) :
    findConversation (getOrCreateConversation s a b).2
        (canonPair a b).1 (canonPair a b).2
      = some (getOrCreateConversation s a b).1
    ∧ (getOrCreateConversation s a b).1.agent1Id = (canonPair a b).1
    ∧ (getOrCreateConversation s a b).1.agent2Id = (canonPair a b).2 := by
  cases h : findConversation s (canonPair a b).1 (canonPair a b).2 with
  | some c =>
      have hp := List.find?_some h
      simp only [Bool.and_eq_true, decide_eq_true_eq] at hp
      simp [getOrCreateConversation, h, hp.1, hp.2]
  | none =>
      have h' : s.conversations.find?
          (fun x => x.agent1Id = (canonPair a b).1 && x.agent2Id = (canonPair a b).2)
          = none := h
      have happ := find?_append_none
        (fun x => x.agent1Id = (canonPair a b).1 && x.agent2Id = (canonPair a b).2)
        s.conversations [newConversation (canonPair a b).1 (canonPair a b).2] h'
      refine ⟨?_, ?_, ?_⟩ <;>
        simp [getOrCreateConversation, h, h', findConversation, happ, newConversation]

theorem getOrCreate_directMessages (s : DMStore) (a b : AgentId) :
    (getOrCreateConversation s a b).2.directMessages = s.directMessages := by
  cases h : findConversation s (canonPair a b).1 (canonPair a b).2 <;>
    simp [getOrCreateConversation, h]

theorem getOrCreate_agents (s : DMStore) (a b : AgentId) :
    (getOrCreateConversation s a b).2.agents = s.agents := by
  cases h : findConversation s (canonPair a b).1 (canonPair a b).2 <;>
    simp [getOrCreateConversation, h]

theorem getOrCreate_blocks (s : DMStore) (a b : AgentId) :
    (getOrCreateConversation s a b).2.blocks = s.blocks := by
  cases h : findConversation s (canonPair a b).1 (canonPair a b).2 <;>
    simp [getOrCreateConversation, h]

theorem updateConversation_directMessages (s : DMStore) (c c' : DMConversation) :
    (updateConversation s c c').directMessages = s.directMessages := rfl

theorem find?_update {α : Type} (p : α → Bool) (c' : α) (hp : p c' = true) :
    ∀ (l : List α), (l.find? p).isSome →
      (l.map (fun r => if p r then c' else r)).find? p = some c' := by
  intro l h
  induction l with
  | nil => simp at h
  | cons r rs ih =>
      cases hr : p r with
      | true =>
          simp only [List.map, List.find?, hr, if_true, hp]
      | false =>
          simp only [List.find?, hr] at h
          have hfr : (if false = true then c' else r) = r :=
            if_neg Bool.false_ne_true
          simp only [List.map, List.find?, hr, hfr]
          exact ih h

theorem findConversation_update (s : DMStore) (c c' : DMConversation)
    (hfind : findConversation s c.agent1Id c.agent2Id = some c)
    (h1 : c'.agent1Id = c.agent1Id) (h2 : c'.agent2Id = c.agent2Id) :
    findConversation (updateConversation s c c') c.agent1Id c.agent2Id
      = some c' := by
  have hp : (fun x : DMConversation =>
      x.agent1Id = c.agent1Id && x.agent2Id = c.agent2Id) c' = true := by
    simp [h1, h2]
  have hsome : (s.conversations.find? (fun x =>
      x.agent1Id = c.agent1Id && x.agent2Id = c.agent2Id)).isSome := by
    have h' : s.conversations.find? (fun x =>
        x.agent1Id = c.agent1Id && x.agent2Id = c.agent2Id) = some c := hfind
    simp [h']
  exact find?_update _ c' hp s.conversations hsome

/-! ## Helper lemmas on roles and memberships -/

theorem roleLevel_le_three (r : Role) : roleLevel r ≤ 3 := by
  cases r <;> simp [roleLevel]

theorem canModifyRole_target_ne_admin {ur tr : Role}
    (h : canModifyRole ur tr = true) : tr ≠ Role.admin := by
  intro he
  subst he
  cases ur <;> simp [canModifyRole, roleLevel] at h

theorem getMemberRole_mem {s : GroupState} {gid : GroupId} {aid : AgentId}
    {r : Role} (h : getMemberRole s gid aid = some r) :
    ∃ m ∈ s.members, m.groupId = gid ∧ m.agentId = aid ∧ m.role = r := by
  unfold getMemberRole at h
  cases hf : s.members.find? (fun m => m.groupId = gid && m.agentId = aid) with
  | none => rw [hf] at h; simp at h
  | some m =>
      rw [hf] at h
      have hr : m.role = r := by simpa using h
      have hmem := List.mem_of_find?_eq_some hf
      have hp := List.find?_some hf
      simp only [Bool.and_eq_true, decide_eq_true_eq] at hp
      exact ⟨m, hmem, hp.1, hp.2, hr⟩

/-- Claim C10 (code bug): at the failing input — participant `"A"`
removing their 👍 from the existing DM `m1` — the unreact handler's
effect trace emits `dm:reaction:removed` first (index 0) and deletes the
reaction row second (index 1): the emission precedes the deletion, while
the specification requires delete-then-emit. -/
theorem unreact_trace_emits_before_delete :
    (unreactDM reactionDMStore "A" "m1" "👍").2 =
      [Effect.emit (agentRoom "B") "dm:reaction:removed",
       Effect.deleteReactionRow "m1" "A" "👍"]
    ∧ (unreactDM reactionDMStore "A" "m1" "👍").1.dmReactions = [] := by
  decide

/-- Claim C4 is false as stated: `GET /api/dm/:agentId` calls
`getOrCreateConversation` before any self-DM guard, so an agent fetching
the thread with itself creates a conversation row whose two participant
ids are equal — strict `agent1Id < agent2Id` fails. -/
theorem selfThread_creates_equal_pair :
    (listDM soloDMStore 100 "a" "a" 50).2.conversations =
      [newConversation "a" "a"]
    ∧ ((listDM soloDMStore 100 "a" "a" 50).2.conversations.all
        (fun c => strLt c.agent1Id c.agent2Id)) = false := by
  decide

/-- Claim C6 is false as stated: a successful claim nulls `claimToken`,
so re-verifying with the same token no longer finds the agent and fails
with `404 Invalid claim token`, not with a Conflict/AlreadyClaimed. -/
theorem reverify_returns_notFound :
    (verifyClaim .dev unclaimedAuthStore "tok" "ava_owner").1 = .ok 200 ()
    ∧ (verifyClaim .dev (verifyClaim .dev unclaimedAuthStore "tok" "ava_owner").2
        "tok" "ava_owner").1 = .err 404 "Invalid claim token" := by
  refine ⟨rfl, ?_⟩
  rfl

theorem verifyClaim_success_clears_token (backend : TwitterBackend)
    (s : AuthStore) (token handle : String)
    (huniq : claimTokenUnique s token)
    (hsucc : (verifyClaim backend s token handle).1 = .ok 200 ()) :
    ∀ r ∈ (verifyClaim backend s token handle).2.agents,
      r.claimToken ≠ some token := by
  by_cases hh : handle = ""
  · simp [verifyClaim, hh] at hsucc
  · cases hfind : s.agents.find? (fun a => a.claimToken = some token) with
    | none => simp [verifyClaim, hh, hfind] at hsucc
    | some agent =>
        cases hcl : agent.claimed with
        | true => simp [verifyClaim, hh, hfind, hcl] at hsucc
        | false =>
            have hagentmem := List.mem_of_find?_eq_some hfind
            have hagenttok : agent.claimToken = some token := by
              have := List.find?_some hfind
              simpa using this
            have hstore : (verifyClaim backend s token handle).2.agents
                = s.agents.map (fun a => if a.id = agent.id then
                    { a with claimed := true
                             claimedBy := some (stripAt handle)
                             claimedByTwitterId :=
                               (match backend with
                                | .reachable _ uid => uid
                                | _ => none)
                             claimToken := none
                             verificationCode := none } else a) := by
              cases backend with
              | dev => simp [verifyClaim, hh, hfind, hcl]
              | apiError => simp [verifyClaim, hh, hfind, hcl] at hsucc
              | reachable found uid =>
                  cases found with
                  | false => simp [verifyClaim, hh, hfind, hcl] at hsucc
                  | true => simp [verifyClaim, hh, hfind, hcl]
            rw [hstore]
            intro r hr
            simp only [List.mem_map] at hr
            obtain ⟨a₀, ha₀, rfl⟩ := hr
            by_cases hid : a₀.id = agent.id
            · simp [hid]
            · simp only [hid, if_false]
              intro htok
              exact hid (congrArg AgentRow.id
                (huniq a₀ ha₀ agent hagentmem htok hagenttok))

/-- Claim C6 (amended): completing a claim nulls `claimToken`, so calling
VerifyClaim again with the same token — any backend, any non-empty handle
— fails with `404 Invalid claim token` rather than a Conflict:
AlreadyClaimed error. -/
theorem reverify_after_success_notFound (backend backend' : TwitterBackend)
    (s : AuthStore) (token handle handle' : String)
    (huniq : claimTokenUnique s token)
    (hh' : handle' ≠ "")
    (hsucc : (verifyClaim backend s token handle).1 = .ok 200 ()) :
    (verifyClaim backend' (verifyClaim backend s token handle).2
      token handle').1 = .err 404 "Invalid claim token" := by
  have hclear := verifyClaim_success_clears_token backend s token handle
    huniq hsucc
  have hfind' : (verifyClaim backend s token handle).2.agents.find?
      (fun a => a.claimToken = some token) = none := by
    apply List.find?_eq_none.mpr
    intro x hx
    simpa using hclear x hx
  set s2 := (verifyClaim backend s token handle).2 with hs2
  simp [verifyClaim, hh', hfind']

/-- Witness for `reverify_after_success_notFound` at the concrete
one-agent store: the first dev-mode verification succeeds and the second
fails with 404. -/
theorem reverify_after_success_witness :
    claimTokenUnique unclaimedAuthStore "tok"
    ∧ (verifyClaim .dev unclaimedAuthStore "tok" "ava_owner").1 = .ok 200 ()
    ∧ (verifyClaim .dev (verifyClaim .dev unclaimedAuthStore "tok" "ava_owner").2
        "tok" "ava_owner").1 = .err 404 "Invalid claim token" :=
  ⟨by decide, rfl,
    reverify_after_success_notFound .dev .dev unclaimedAuthStore
      "tok" "ava_owner" "ava_owner" (by decide) (by decide) rfl⟩

/-- Claim C3: blocking is asymmetric.  For an otherwise valid request
(non-empty content, existing target, not a self-DM), SendDM fails with
`403 Forbidden` exactly when the *target* has blocked the sender, and when
the target has not blocked the sender the send succeeds and appends the
message — regardless of any block the sender holds against the target. -/
theorem block_check_asymmetric (s : DMStore) (now : Nat) (newId : MsgId)
    (myAgentId targetAgentId : AgentId) (content : String)
    (hc : jsTrim content ≠ "")
    (hex : s.agents.contains targetAgentId = true)
    (hne : targetAgentId ≠ myAgentId) :
    (isBlocked s targetAgentId myAgentId = true →
      sendDM s now newId myAgentId targetAgentId content none
        = (.err 403 "You cannot message this agent", s, []))
    ∧ (isBlocked s targetAgentId myAgentId = false →
      ∃ dm : DirectMessage,
        (sendDM s now newId myAgentId targetAgentId content none).1 = .ok 201 dm
        ∧ dm.fromAgentId = myAgentId ∧ dm.toAgentId = targetAgentId
        ∧ (sendDM s now newId myAgentId targetAgentId content none).2.1.directMessages
            = s.directMessages ++ [dm]
        ∧ (sendDM s now newId myAgentId targetAgentId content none).2.2
            = [⟨agentRoom targetAgentId, "dm:new"⟩]) := by
  have hmem : targetAgentId ∈ s.agents := by simpa using hex
  constructor
  · intro hb
    simp [sendDM, hc, hmem, hne, hb]
  · intro hb
    refine ⟨{ id := newId, fromAgentId := myAgentId, toAgentId := targetAgentId
              content := jsTrim content, replyToId := none, read := false
              expiresAt := resolveExpiresAt
                (getOrCreateConversation s myAgentId targetAgentId).1 now
              createdAt := now }, ?_, rfl, rfl, ?_, ?_⟩
    · simp [sendDM, hc, hmem, hne, hb]
    · simp [sendDM, hc, hmem, hne, hb, getOrCreate_directMessages]
    · simp [sendDM, hc, hmem, hne, hb]

/-- Witness for `block_check_asymmetric`: in `blockDMStore` agent `"a"`
has blocked `"b"`, yet `"a"` (the blocker) can still send to `"b"`. -/
theorem block_check_asymmetric_witness :
    isBlocked blockDMStore "a" "b" = true
    ∧ isBlocked blockDMStore "b" "a" = false
    ∧ ∃ dm : DirectMessage,
        (sendDM blockDMStore 7 "m1" "a" "b" "hello" none).1 = .ok 201 dm
        ∧ dm.fromAgentId = "a" ∧ dm.toAgentId = "b"
        ∧ (sendDM blockDMStore 7 "m1" "a" "b" "hello" none).2.1.directMessages
            = blockDMStore.directMessages ++ [dm]
        ∧ (sendDM blockDMStore 7 "m1" "a" "b" "hello" none).2.2
            = [⟨agentRoom "b", "dm:new"⟩] :=
  ⟨by decide, by decide,
    (block_check_asymmetric blockDMStore 7 "m1" "a" "b" "hello"
      (by decide) (by decide) (by decide)).2 (by decide)⟩

theorem resolveExpiresAt_active {conv : DMConversation} {t : Nat} (now : Nat)
    (h : timerState conv = .active t) :
    resolveExpiresAt conv now = some (now + t * 1000) := by
  unfold timerState at h
  cases hp : conv.disappearTimerPendingApproval with
  | true => rw [hp] at h; simp at h
  | false =>
      rw [hp] at h
      simp only [Bool.false_eq_true, if_false] at h
      cases hd : conv.disappearTimer with
      | none => rw [hd] at h; simp at h
      | some u =>
          rw [hd] at h
          by_cases hu : u = 0
          · simp [hu] at h
          · simp only [hu, ne_eq, not_false_eq_true, if_true] at h
            have : u = t := by
              cases h; rfl
            subst this
            simp [resolveExpiresAt, hd, hp, hu]

theorem resolveExpiresAt_not_active {conv : DMConversation} (now : Nat)
    (h : ∀ t, timerState conv ≠ .active t) :
    resolveExpiresAt conv now = none := by
  cases hp : conv.disappearTimerPendingApproval with
  | true => simp [resolveExpiresAt, hp]
  | false =>
      cases hd : conv.disappearTimer with
      | none => simp [resolveExpiresAt, hd]
      | some u =>
          by_cases hu : u = 0
          · simp [resolveExpiresAt, hd, hu]
          · exfalso
            exact h u (by simp [timerState, hp, hd, hu])

theorem setDisappear_keeps_messages (s : DMStore) (x y : AgentId) (t : Nat) :
    (setDisappear s x y t).store.directMessages = s.directMessages := by
  simp only [setDisappear]
  split
  · rw [updateConversation_directMessages, getOrCreate_directMessages]
  split
  · split
    · rw [updateConversation_directMessages, getOrCreate_directMessages]
    · rw [updateConversation_directMessages, getOrCreate_directMessages]
  · rw [updateConversation_directMessages, getOrCreate_directMessages]

/-- Claim C5: on an otherwise valid send, the inserted DM carries
`expiresAt = createdAt + t·1000` (milliseconds, `t` seconds) exactly when
the conversation's disappearing timer is in state `Active t` at send time
(timer stored and no proposal pending); while `Disabled` or `Proposed` the
DM gets no `expiresAt`; and activating a timer never modifies stored
messages, so earlier messages are not retro-expired. -/
theorem expiresAt_iff_active (s : DMStore) (now : Nat) (newId : MsgId)
    (myAgentId targetAgentId : AgentId) (content : String)
    (hc : jsTrim content ≠ "")
    (hex : s.agents.contains targetAgentId = true)
    (hne : targetAgentId ≠ myAgentId)
    (hb : isBlocked s targetAgentId myAgentId = false) :
    (∀ t, timerState (getOrCreateConversation s myAgentId targetAgentId).1
        = .active t →
      ∃ dm, (sendDM s now newId myAgentId targetAgentId content none).1
          = .ok 201 dm
        ∧ dm.createdAt = now
        ∧ dm.expiresAt = some (dm.createdAt + t * 1000))
    ∧ ((∀ t, timerState (getOrCreateConversation s myAgentId targetAgentId).1
        ≠ .active t) →
      ∃ dm, (sendDM s now newId myAgentId targetAgentId content none).1
          = .ok 201 dm
        ∧ dm.expiresAt = none)
    ∧ (∀ (s' : DMStore) (x y : AgentId) (t : Nat),
        (setDisappear s' x y t).store.directMessages = s'.directMessages) := by
  have hmem : targetAgentId ∈ s.agents := by simpa using hex
  refine ⟨?_, ?_, fun s' x y t => setDisappear_keeps_messages s' x y t⟩
  · intro t ht
    refine ⟨{ id := newId, fromAgentId := myAgentId, toAgentId := targetAgentId
              content := jsTrim content, replyToId := none, read := false
              expiresAt := resolveExpiresAt
                (getOrCreateConversation s myAgentId targetAgentId).1 now
              createdAt := now }, ?_, rfl, ?_⟩
    · simp [sendDM, hc, hmem, hne, hb]
    · exact resolveExpiresAt_active now ht
  · intro hnot
    refine ⟨{ id := newId, fromAgentId := myAgentId, toAgentId := targetAgentId
              content := jsTrim content, replyToId := none, read := false
              expiresAt := resolveExpiresAt
                (getOrCreateConversation s myAgentId targetAgentId).1 now
              createdAt := now }, ?_, ?_⟩
    · simp [sendDM, hc, hmem, hne, hb]
    · exact resolveExpiresAt_not_active now hnot

/-- Witness for `expiresAt_iff_active`: with the active 7200-second timer
between `"a"` and `"b"`, a DM sent at time 50 expires at
`50 + 7200·1000`. -/
theorem expiresAt_iff_active_witness :
    timerState (getOrCreateConversation activeDMStore "a" "b").1
      = .active 7200
    ∧ ∃ dm, (sendDM activeDMStore 50 "m1" "a" "b" "hi" none).1 = .ok 201 dm
        ∧ dm.createdAt = 50
        ∧ dm.expiresAt = some (dm.createdAt + 7200 * 1000) :=
  ⟨by decide,
    (expiresAt_iff_active activeDMStore 50 "m1" "a" "b" "hi"
      (by decide) (by decide) (by decide) (by decide)).1 7200 (by decide)⟩

theorem getConv_comm (s : DMStore) {a b : AgentId} (hab : a ≠ b) :
    getConv s a b = getConv s b a := by
  unfold getConv
  rw [canonPair_comm hab]

theorem getOrCreate_of_found (s : DMStore) (x y : AgentId)
    (conv : DMConversation) (hconv : getConv s x y = some conv) :
    getOrCreateConversation s x y = (conv, s) := by
  have hconv' : findConversation s (canonPair x y).1 (canonPair x y).2
      = some conv := hconv
  simp [getOrCreateConversation, hconv']

theorem getConv_update (s : DMStore) (x y : AgentId)
    (conv c' : DMConversation)
    (hconv : getConv s x y = some conv)
    (h1 : c'.agent1Id = conv.agent1Id) (h2 : c'.agent2Id = conv.agent2Id) :
    getConv (updateConversation s conv c') x y = some c' := by
  have hconv'' : s.conversations.find? (fun c =>
      c.agent1Id = (canonPair x y).1 && c.agent2Id = (canonPair x y).2)
      = some conv := hconv
  have hp := List.find?_some hconv''
  simp only [Bool.and_eq_true, decide_eq_true_eq] at hp
  have hfind : findConversation s conv.agent1Id conv.agent2Id = some conv := by
    rw [hp.1, hp.2]
    exact hconv
  have hres := findConversation_update s conv c' hfind h1 h2
  show findConversation (updateConversation s conv c')
    (canonPair x y).1 (canonPair x y).2 = some c'
  rw [← hp.1, ← hp.2]
  exact hres

theorem setDisappear_accept (s : DMStore) (x y : AgentId) (t : Nat)
    (conv : DMConversation)
    (hconv : getConv s x y = some conv)
    (ht : t ≠ 0)
    (hpend : conv.disappearTimerPendingApproval = true)
    (hbyne : conv.disappearTimerProposedBy ≠ some x)
    (hval : conv.disappearTimerProposedValue = some t) :
    setDisappear s x y t =
      { status := "enabled"
        store := updateConversation s conv
          { conv with
            disappearTimer := some t
            disappearTimerSetBy := conv.disappearTimerProposedBy
            disappearTimerPendingApproval := false
            disappearTimerProposedValue := none
            disappearTimerProposedBy := none }
        events := [⟨agentRoom y, "dm:disappear:enabled"⟩,
                   ⟨agentRoom x, "dm:disappear:enabled"⟩] } := by
  have hg := getOrCreate_of_found s x y conv hconv
  simp [setDisappear, hg, ht, hpend, hbyne, hval]

theorem setDisappear_replace (s : DMStore) (x y : AgentId) (t : Nat)
    (conv : DMConversation)
    (hconv : getConv s x y = some conv)
    (ht : t ≠ 0)
    (hpend : conv.disappearTimerPendingApproval = true)
    (hbyne : conv.disappearTimerProposedBy ≠ some x)
    (hval : conv.disappearTimerProposedValue ≠ some t) :
    setDisappear s x y t =
      { status := "proposed"
        store := updateConversation s conv
          { conv with
            disappearTimerProposedValue := some t
            disappearTimerProposedBy := some x }
        events := [⟨agentRoom y, "dm:disappear:proposed"⟩] } := by
  have hg := getOrCreate_of_found s x y conv hconv
  simp [setDisappear, hg, ht, hpend, hbyne, hval]

theorem setDisappear_propose_fresh (s : DMStore) (x y : AgentId) (t : Nat)
    (conv : DMConversation)
    (hconv : getConv s x y = some conv)
    (ht : t ≠ 0)
    (hpend : conv.disappearTimerPendingApproval = false) :
    setDisappear s x y t =
      { status := "proposed"
        store := updateConversation s conv
          { conv with
            disappearTimerPendingApproval := true
            disappearTimerProposedValue := some t
            disappearTimerProposedBy := some x }
        events := [⟨agentRoom y, "dm:disappear:proposed"⟩] } := by
  have hg := getOrCreate_of_found s x y conv hconv
  simp [setDisappear, hg, ht, hpend]

theorem setDisappear_fresh_proposes (s₀ : DMStore) (a b : AgentId) (u : Nat)
    (hu : u ≠ 0) (hnone : getConv s₀ a b = none) :
    getConv (setDisappear s₀ a b u).store a b =
      some { newConversation (canonPair a b).1 (canonPair a b).2 with
        disappearTimerPendingApproval := true
        disappearTimerProposedValue := some u
        disappearTimerProposedBy := some a } := by
  have hnone' : findConversation s₀ (canonPair a b).1 (canonPair a b).2
      = none := hnone
  have hg : getOrCreateConversation s₀ a b
      = (newConversation (canonPair a b).1 (canonPair a b).2,
         { s₀ with conversations := s₀.conversations
             ++ [newConversation (canonPair a b).1 (canonPair a b).2] }) := by
    simp [getOrCreateConversation, hnone']
  have hf1 : getConv
      { s₀ with conversations := s₀.conversations
          ++ [newConversation (canonPair a b).1 (canonPair a b).2] } a b
      = some (newConversation (canonPair a b).1 (canonPair a b).2) := by
    have happ := find?_append_none
      (fun x : DMConversation =>
        x.agent1Id = (canonPair a b).1 && x.agent2Id = (canonPair a b).2)
      s₀.conversations [newConversation (canonPair a b).1 (canonPair a b).2]
      hnone'
    show findConversation _ (canonPair a b).1 (canonPair a b).2 = _
    unfold findConversation
    rw [show ({ s₀ with conversations := s₀.conversations
        ++ [newConversation (canonPair a b).1 (canonPair a b).2] } :
          DMStore).conversations
        = s₀.conversations
            ++ [newConversation (canonPair a b).1 (canonPair a b).2] from rfl]
    rw [happ]
    simp [newConversation]
  have hpend0 : (newConversation (canonPair a b).1
      (canonPair a b).2).disappearTimerPendingApproval = false := rfl
  have hstep := setDisappear_propose_fresh
    { s₀ with conversations := s₀.conversations
        ++ [newConversation (canonPair a b).1 (canonPair a b).2] }
    a b u (newConversation (canonPair a b).1 (canonPair a b).2) hf1 hu hpend0
  have hsame : setDisappear s₀ a b u = setDisappear
      { s₀ with conversations := s₀.conversations
          ++ [newConversation (canonPair a b).1 (canonPair a b).2] }
      a b u := by
    simp only [setDisappear, hg, getOrCreate_of_found _ a b _ hf1]
  rw [hsame, hstep]
  exact getConv_update _ a b _ _ hf1 rfl rfl

theorem propose_then_accept (s₀ : DMStore) (a b : AgentId) (u : Nat)
    (hu : u ≠ 0) (hab : a ≠ b) (hnone : getConv s₀ a b = none) :
    ∃ c, getConv (setDisappear (setDisappear s₀ a b u).store b a u).store a b
        = some c
      ∧ timerState c = .active u := by
  have hc1 := setDisappear_fresh_proposes s₀ a b u hu hnone
  have hc1' : getConv (setDisappear s₀ a b u).store b a
      = some { newConversation (canonPair a b).1 (canonPair a b).2 with
          disappearTimerPendingApproval := true
          disappearTimerProposedValue := some u
          disappearTimerProposedBy := some a } := by
    rw [← getConv_comm _ hab]
    exact hc1
  have hstep2 := setDisappear_accept (setDisappear s₀ a b u).store b a u
    _ hc1' hu rfl (by simpa using hab) rfl
  refine ⟨{ newConversation (canonPair a b).1 (canonPair a b).2 with
      disappearTimer := some u
      disappearTimerSetBy := some a
      disappearTimerPendingApproval := false
      disappearTimerProposedValue := none
      disappearTimerProposedBy := none }, ?_, ?_⟩
  · rw [hstep2]
    rw [getConv_comm _ hab]
    exact getConv_update _ b a _ _ hc1' rfl rfl
  · simp [timerState, hu]

/-- Claim C2: with a pending proposal `Proposed(t', by')` from the other
party (`by' ≠ x`), a non-zero SetDisappear by `x` with `t = t'` moves the
conversation to `Active(t)` and publishes `dm:disappear:enabled` to both
sides, while `t ≠ t'` replaces the pending proposal with `Proposed(t, x)`
and publishes `dm:disappear:proposed`; consequently, starting from a fresh
conversation, propose-then-match yields `Active(t)` regardless of which
party moves last. -/
theorem disappear_matching_proposal (s : DMStore) (x y : AgentId)
    (t t' : Nat) (byAgent : AgentId) (conv : DMConversation)
    (hconv : getConv s x y = some conv)
    (ht : t ≠ 0)
    (hpend : conv.disappearTimerPendingApproval = true)
    (hby : conv.disappearTimerProposedBy = some byAgent)
    (hbyne : byAgent ≠ x)
    (hval : conv.disappearTimerProposedValue = some t') :
    (t = t' →
      (setDisappear s x y t).status = "enabled"
      ∧ (∃ c', getConv (setDisappear s x y t).store x y = some c'
          ∧ timerState c' = .active t)
      ∧ (setDisappear s x y t).events
          = [⟨agentRoom y, "dm:disappear:enabled"⟩,
             ⟨agentRoom x, "dm:disappear:enabled"⟩])
    ∧ (t ≠ t' →
      (setDisappear s x y t).status = "proposed"
      ∧ (∃ c', getConv (setDisappear s x y t).store x y = some c'
          ∧ timerState c' = .proposed t x)
      ∧ (setDisappear s x y t).events
          = [⟨agentRoom y, "dm:disappear:proposed"⟩])
    ∧ (∀ (s₀ : DMStore) (a b : AgentId) (u : Nat), u ≠ 0 → a ≠ b →
        getConv s₀ a b = none →
        (∃ ca, getConv
            (setDisappear (setDisappear s₀ a b u).store b a u).store a b
            = some ca ∧ timerState ca = .active u)
        ∧ (∃ cb, getConv
            (setDisappear (setDisappear s₀ b a u).store a b u).store a b
            = some cb ∧ timerState cb = .active u)) := by
  have hbyne' : conv.disappearTimerProposedBy ≠ some x := by
    rw [hby]
    intro hcc
    exact hbyne (by injection hcc)
  refine ⟨?_, ?_, ?_⟩
  · intro he
    subst he
    have hstep := setDisappear_accept s x y t conv hconv ht hpend hbyne' hval
    rw [hstep]
    refine ⟨rfl, ⟨_, getConv_update s x y conv _ hconv rfl rfl, ?_⟩, rfl⟩
    simp [timerState, ht]
  · intro hne
    have hval' : conv.disappearTimerProposedValue ≠ some t := by
      rw [hval]
      intro hcc
      exact hne (by injection hcc with h; exact h.symm)
    have hstep := setDisappear_replace s x y t conv hconv ht hpend hbyne' hval'
    rw [hstep]
    refine ⟨rfl, ⟨_, getConv_update s x y conv _ hconv rfl rfl, ?_⟩, rfl⟩
    simp [timerState, hpend]
  · intro s₀ a b u hu hab hnone
    refine ⟨propose_then_accept s₀ a b u hu hab hnone, ?_⟩
    have hnone' : getConv s₀ b a = none := by
      rw [← getConv_comm _ hab]
      exact hnone
    obtain ⟨c, hc, hts⟩ := propose_then_accept s₀ b a u hu (Ne.symm hab) hnone'
    refine ⟨c, ?_, hts⟩
    rw [getConv_comm _ hab]
    exact hc

/-- Witness for `disappear_matching_proposal`: `"b"` proposed 3600 in
`pendingDMStore`; `"a"` matching with 3600 enables the timer for both. -/
theorem disappear_matching_witness :
    getConv pendingDMStore "a" "b" = some pendingConv
    ∧ (setDisappear pendingDMStore "a" "b" 3600).status = "enabled"
    ∧ (∃ c', getConv (setDisappear pendingDMStore "a" "b" 3600).store "a" "b"
        = some c' ∧ timerState c' = .active 3600)
    ∧ (setDisappear pendingDMStore "a" "b" 3600).events
        = [⟨agentRoom "b", "dm:disappear:enabled"⟩,
           ⟨agentRoom "a", "dm:disappear:enabled"⟩] := by
  refine ⟨by decide, ?_⟩
  exact (disappear_matching_proposal pendingDMStore "a" "b" 3600 3600 "b"
    pendingConv (by decide) (by decide) (by decide) (by decide)
    (by decide) (by decide)).1 rfl

theorem insertByDescCreated_mem {m x : DirectMessage} :
    ∀ {l : List DirectMessage}, m ∈ insertByDescCreated x l → m = x ∨ m ∈ l := by
  intro l
  induction l with
  | nil =>
      intro h
      unfold insertByDescCreated at h
      exact Or.inl (List.mem_singleton.mp h)
  | cons y ys ih =>
      intro h
      unfold insertByDescCreated at h
      by_cases hc : y.createdAt < x.createdAt
      · rw [if_pos hc] at h
        rcases List.mem_cons.mp h with h | h
        · exact Or.inl h
        · exact Or.inr h
      · rw [if_neg hc] at h
        rcases List.mem_cons.mp h with h | h
        · exact Or.inr (by simp [h])
        · rcases ih h with h' | h'
          · exact Or.inl h'
          · exact Or.inr (List.mem_cons_of_mem y h')

theorem sortByDescCreated_mem {m : DirectMessage} :
    ∀ {l : List DirectMessage}, m ∈ sortByDescCreated l → m ∈ l := by
  intro l
  induction l with
  | nil => intro h; simp [sortByDescCreated] at h
  | cons x ls ih =>
      intro h
      have h' : m ∈ insertByDescCreated x (sortByDescCreated ls) := h
      rcases insertByDescCreated_mem h' with h'' | h''
      · simp [h'']
      · exact List.mem_cons_of_mem x (ih h'')

theorem listDM_fst (s : DMStore) (now : Nat) (myAgentId targetAgentId : AgentId)
    (limit : Nat) :
    (listDM s now myAgentId targetAgentId limit).1
      = listDMCore s.directMessages myAgentId targetAgentId
          (clearedFor (getOrCreateConversation s myAgentId targetAgentId).1
            myAgentId targetAgentId) now limit := by
  show listDMCore (getOrCreateConversation s myAgentId targetAgentId).2.directMessages
      myAgentId targetAgentId
      (clearedFor (getOrCreateConversation s myAgentId targetAgentId).1
        myAgentId targetAgentId) now limit = _
  rw [getOrCreate_directMessages]

theorem listDMCore_cleared_empty (msgs : List DirectMessage) (a b : AgentId)
    (now t₂ limit : Nat)
    (h : ∀ m ∈ msgs,
      ((m.fromAgentId = a ∧ m.toAgentId = b)
        ∨ (m.fromAgentId = b ∧ m.toAgentId = a)) → m.createdAt < now) :
    listDMCore msgs a b (some now) t₂ limit = [] := by
  unfold listDMCore
  rw [List.reverse_eq_nil_iff]
  apply List.filter_eq_nil_iff.mpr
  intro m hm
  have hmem : m ∈ sortByDescCreated (msgs.filter (fun x =>
      (x.fromAgentId = a && x.toAgentId = b)
      || (x.fromAgentId = b && x.toAgentId = a))) :=
    List.take_subset _ _ hm
  have hbase := List.mem_filter.mp (sortByDescCreated_mem hmem)
  have hdir : (m.fromAgentId = a ∧ m.toAgentId = b)
      ∨ (m.fromAgentId = b ∧ m.toAgentId = a) := by
    have := hbase.2
    simp only [Bool.or_eq_true, Bool.and_eq_true, decide_eq_true_eq] at this
    exact this
  have hlt := h m hbase.1 hdir
  simp [visibleInThread, hlt]

theorem getOrCreate_fst_comm (s : DMStore) {a b : AgentId} (hab : a ≠ b) :
    (getOrCreateConversation s b a).1 = (getOrCreateConversation s a b).1 := by
  simp only [getOrCreateConversation]
  rw [canonPair_comm (Ne.symm hab)]

/-- Claim C9: ClearConversation sets only the caller's side.  After `a`
clears at time `now`: the stored messages are untouched; the stored
conversation has `a`'s side set to `now` and `b`'s side unchanged; a
subsequent thread fetch by `a` (at any time, any limit) returns the empty
list when every prior message of the conversation predates the clear;
and `b`'s thread fetch returns exactly the same list as before the clear. -/
theorem clear_is_per_side (s : DMStore) (now t₂ limit : Nat) (a b : AgentId)
    (hab : a ≠ b)
    (hmsgs : ∀ m ∈ s.directMessages,
      ((m.fromAgentId = a ∧ m.toAgentId = b)
        ∨ (m.fromAgentId = b ∧ m.toAgentId = a)) → m.createdAt < now) :
    (clearConversation s now a b).2.1.directMessages = s.directMessages
    ∧ (∃ c', getConv (clearConversation s now a b).2.1 a b = some c'
        ∧ clearedFor c' a b = some now
        ∧ clearedFor c' b a
            = clearedFor (getOrCreateConversation s a b).1 b a)
    ∧ (listDM (clearConversation s now a b).2.1 t₂ a b limit).1 = []
    ∧ (listDM (clearConversation s now a b).2.1 t₂ b a limit).1
        = (listDM s t₂ b a limit).1 := by
  obtain ⟨hfound, hid1, hid2⟩ := getOrCreate_found s a b
  have hgc : getConv (getOrCreateConversation s a b).2 a b
      = some (getOrCreateConversation s a b).1 := hfound
  -- the updated conversation, branching on which side `a` is
  cases hsl : strLt a b with
  | true =>
      have hsl' : strLt b a = false := strLt_asymm hsl
      have hstep : clearConversation s now a b =
          (.ok 200 (), updateConversation (getOrCreateConversation s a b).2
            (getOrCreateConversation s a b).1
            { (getOrCreateConversation s a b).1 with
              agent1ClearedAt := some now },
            [⟨agentRoom b, "dm:cleared"⟩]) := by
        simp [clearConversation, hsl]
      have hconv' : getConv (clearConversation s now a b).2.1 a b
          = some { (getOrCreateConversation s a b).1 with
              agent1ClearedAt := some now } := by
        rw [hstep]
        exact getConv_update _ a b _ _ hgc rfl rfl
      have hdm : (clearConversation s now a b).2.1.directMessages
          = s.directMessages := by
        rw [hstep]
        show (updateConversation _ _ _).directMessages = _
        rw [updateConversation_directMessages, getOrCreate_directMessages]
      refine ⟨hdm, ⟨_, hconv', ?_, ?_⟩, ?_, ?_⟩
      · simp [clearedFor, hsl]
      · simp [clearedFor, hsl']
      · rw [listDM_fst]
        rw [getOrCreate_of_found _ a b _ hconv']
        rw [hdm]
        have : clearedFor { (getOrCreateConversation s a b).1 with
            agent1ClearedAt := some now } a b = some now := by
          simp [clearedFor, hsl]
        rw [this]
        exact listDMCore_cleared_empty s.directMessages a b now t₂ limit hmsgs
      · rw [listDM_fst, listDM_fst]
        have hbconv : getConv (clearConversation s now a b).2.1 b a
            = some { (getOrCreateConversation s a b).1 with
                agent1ClearedAt := some now } := by
          rw [← getConv_comm _ hab]
          exact hconv'
        rw [getOrCreate_of_found _ b a _ hbconv]
        rw [hdm]
        rw [getOrCreate_fst_comm s hab]
        have : clearedFor { (getOrCreateConversation s a b).1 with
            agent1ClearedAt := some now } b a
            = clearedFor (getOrCreateConversation s a b).1 b a := by
          simp [clearedFor, hsl']
        rw [this]
  | false =>
      have hsl' : strLt b a = true := by
        rcases strLt_total_of_ne hab with h | h
        · rw [h] at hsl; cases hsl
        · exact h
      have hstep : clearConversation s now a b =
          (.ok 200 (), updateConversation (getOrCreateConversation s a b).2
            (getOrCreateConversation s a b).1
            { (getOrCreateConversation s a b).1 with
              agent2ClearedAt := some now },
            [⟨agentRoom b, "dm:cleared"⟩]) := by
        simp [clearConversation, hsl]
      have hconv' : getConv (clearConversation s now a b).2.1 a b
          = some { (getOrCreateConversation s a b).1 with
              agent2ClearedAt := some now } := by
        rw [hstep]
        exact getConv_update _ a b _ _ hgc rfl rfl
      have hdm : (clearConversation s now a b).2.1.directMessages
          = s.directMessages := by
        rw [hstep]
        show (updateConversation _ _ _).directMessages = _
        rw [updateConversation_directMessages, getOrCreate_directMessages]
      refine ⟨hdm, ⟨_, hconv', ?_, ?_⟩, ?_, ?_⟩
      · simp [clearedFor, hsl]
      · simp [clearedFor, hsl']
      · rw [listDM_fst]
        rw [getOrCreate_of_found _ a b _ hconv']
        rw [hdm]
        have : clearedFor { (getOrCreateConversation s a b).1 with
            agent2ClearedAt := some now } a b = some now := by
          simp [clearedFor, hsl]
        rw [this]
        exact listDMCore_cleared_empty s.directMessages a b now t₂ limit hmsgs
      · rw [listDM_fst, listDM_fst]
        have hbconv : getConv (clearConversation s now a b).2.1 b a
            = some { (getOrCreateConversation s a b).1 with
                agent2ClearedAt := some now } := by
          rw [← getConv_comm _ hab]
          exact hconv'
        rw [getOrCreate_of_found _ b a _ hbconv]
        rw [hdm]
        rw [getOrCreate_fst_comm s hab]
        have : clearedFor { (getOrCreateConversation s a b).1 with
            agent2ClearedAt := some now } b a
            = clearedFor (getOrCreateConversation s a b).1 b a := by
          simp [clearedFor, hsl']
        rw [this]

/-- Witness for `clear_is_per_side` on the three-message store (spec
scenario §8.5): after `"a"` clears at time 10, `"a"`'s list is empty while
`"b"`'s list equals its pre-clear value, and the messages are intact. -/
theorem clear_is_per_side_witness :
    (clearConversation threeMsgDMStore 10 "a" "b").2.1.directMessages
        = threeMsgDMStore.directMessages
    ∧ (listDM (clearConversation threeMsgDMStore 10 "a" "b").2.1 20 "a" "b" 50).1
        = []
    ∧ (listDM (clearConversation threeMsgDMStore 10 "a" "b").2.1 20 "b" "a" 50).1
        = (listDM threeMsgDMStore 20 "b" "a" 50).1 :=
  have h := clear_is_per_side threeMsgDMStore 10 20 50 "a" "b"
    (by decide) (by decide)
  ⟨h.1, h.2.2.1, h.2.2.2⟩

theorem insertGByDescCreated_mem {m x : GMsgRow} :
    ∀ {l : List GMsgRow}, m ∈ insertGByDescCreated x l → m = x ∨ m ∈ l := by
  intro l
  induction l with
  | nil =>
      intro h
      unfold insertGByDescCreated at h
      exact Or.inl (List.mem_singleton.mp h)
  | cons y ys ih =>
      intro h
      unfold insertGByDescCreated at h
      by_cases hc : y.createdAt < x.createdAt
      · rw [if_pos hc] at h
        rcases List.mem_cons.mp h with h | h
        · exact Or.inl h
        · exact Or.inr h
      · rw [if_neg hc] at h
        rcases List.mem_cons.mp h with h | h
        · exact Or.inr (by simp [h])
        · rcases ih h with h' | h'
          · exact Or.inl h'
          · exact Or.inr (List.mem_cons_of_mem y h')

theorem insertGByDescCreated_pairwise (x : GMsgRow) :
    ∀ {l : List GMsgRow},
      l.Pairwise (fun p q => q.createdAt ≤ p.createdAt) →
      (insertGByDescCreated x l).Pairwise
        (fun p q => q.createdAt ≤ p.createdAt) := by
  intro l
  induction l with
  | nil =>
      intro _
      unfold insertGByDescCreated
      simp
  | cons y ys ih =>
      intro h
      rcases List.pairwise_cons.mp h with ⟨hy, hys⟩
      unfold insertGByDescCreated
      by_cases hc : y.createdAt < x.createdAt
      · rw [if_pos hc]
        refine List.pairwise_cons.mpr ⟨?_, h⟩
        intro z hz
        rcases List.mem_cons.mp hz with hz | hz
        · rw [hz]; exact le_of_lt hc
        · exact le_trans (hy z hz) (le_of_lt hc)
      · rw [if_neg hc]
        refine List.pairwise_cons.mpr ⟨?_, ih hys⟩
        intro z hz
        rcases insertGByDescCreated_mem hz with hz | hz
        · rw [hz]; exact le_of_not_lt hc
        · exact hy z hz

theorem sortGByDescCreated_pairwise (l : List GMsgRow) :
    (sortGByDescCreated l).Pairwise (fun p q => q.createdAt ≤ p.createdAt) := by
  induction l with
  | nil => simp [sortGByDescCreated]
  | cons x ls ih => exact insertGByDescCreated_pairwise x ih

theorem sortGByDescCreated_mem {m : GMsgRow} :
    ∀ {l : List GMsgRow}, m ∈ sortGByDescCreated l → m ∈ l := by
  intro l
  induction l with
  | nil => intro h; simp [sortGByDescCreated] at h
  | cons x ls ih =>
      intro h
      have h' : m ∈ insertGByDescCreated x (sortGByDescCreated ls) := h
      rcases insertGByDescCreated_mem h' with h'' | h''
      · simp [h'']
      · exact List.mem_cons_of_mem x (ih h'')

theorem insertGByDescCreated_length (x : GMsgRow) (l : List GMsgRow) :
    (insertGByDescCreated x l).length = l.length + 1 := by
  induction l with
  | nil => rfl
  | cons y ys ih =>
      unfold insertGByDescCreated
      by_cases hc : y.createdAt < x.createdAt
      · rw [if_pos hc]
        simp
      · rw [if_neg hc]
        simp [ih]

theorem sortGByDescCreated_length (l : List GMsgRow) :
    (sortGByDescCreated l).length = l.length := by
  induction l with
  | nil => rfl
  | cons x ls ih =>
      show (insertGByDescCreated x (sortGByDescCreated ls)).length = _
      rw [insertGByDescCreated_length, ih]
      rfl

theorem mem_insertGByDescCreated_self (x : GMsgRow) (l : List GMsgRow) :
    x ∈ insertGByDescCreated x l := by
  induction l with
  | nil => exact List.mem_singleton.mpr rfl
  | cons y ys ih =>
      unfold insertGByDescCreated
      by_cases hc : y.createdAt < x.createdAt
      · rw [if_pos hc]
        exact List.mem_cons_self x _
      · rw [if_neg hc]
        exact List.mem_cons_of_mem y ih

theorem mem_insertGByDescCreated_of_mem {m : GMsgRow} (x : GMsgRow) :
    ∀ {l : List GMsgRow}, m ∈ l → m ∈ insertGByDescCreated x l := by
  intro l
  induction l with
  | nil => intro h; cases h
  | cons y ys ih =>
      intro h
      unfold insertGByDescCreated
      by_cases hc : y.createdAt < x.createdAt
      · rw [if_pos hc]
        exact List.mem_cons_of_mem x h
      · rw [if_neg hc]
        rcases List.mem_cons.mp h with h | h
        · rw [h]; exact List.mem_cons_self y _
        · exact List.mem_cons_of_mem y (ih h)

theorem mem_sortGByDescCreated_of_mem {m : GMsgRow} :
    ∀ {l : List GMsgRow}, m ∈ l → m ∈ sortGByDescCreated l := by
  intro l
  induction l with
  | nil => intro h; cases h
  | cons x ls ih =>
      intro h
      show m ∈ insertGByDescCreated x (sortGByDescCreated ls)
      rcases List.mem_cons.mp h with h | h
      · rw [h]; exact mem_insertGByDescCreated_self x _
      · exact mem_insertGByDescCreated_of_mem x (ih h)

theorem take_newest (l : List GMsgRow) (n : Nat)
    (hsort : l.Pairwise (fun p q => q.createdAt ≤ p.createdAt))
    {m m' : GMsgRow} (hm : m ∈ l.take n) (hm' : m' ∈ l)
    (hnot : m' ∉ l.take n) :
    m'.createdAt ≤ m.createdAt := by
  have hsplit : l = l.take n ++ l.drop n := (List.take_append_drop n l).symm
  have hp : ∀ x ∈ l.take n, ∀ y ∈ l.drop n, y.createdAt ≤ x.createdAt := by
    rw [hsplit] at hsort
    exact fun x hx y hy => (List.pairwise_append.mp hsort).2.2 x hx y hy
  have hm'' : m' ∈ l.drop n := by
    rw [hsplit] at hm'
    rcases List.mem_append.mp hm' with h | h
    · exact absurd h hnot
    · exact h
  exact hp m hm m' hm''

theorem selectGroupMessages_sorted (s : GroupState) (gid : GroupId)
    (limit : Nat) :
    (selectGroupMessages s gid limit).Pairwise
      (fun p q => p.createdAt ≤ q.createdAt) := by
  unfold selectGroupMessages
  rw [List.pairwise_reverse]
  exact (sortGByDescCreated_pairwise _).sublist (List.take_sublist _ _)

theorem selectGroupMessages_length_le (s : GroupState) (gid : GroupId)
    (limit : Nat) :
    (selectGroupMessages s gid limit).length ≤ limit := by
  unfold selectGroupMessages
  rw [List.length_reverse, List.length_take]
  exact min_le_left _ _

theorem selectGroupMessages_length (s : GroupState) (gid : GroupId)
    (limit : Nat) :
    (selectGroupMessages s gid limit).length
      = min limit (groupRows s gid).length := by
  unfold selectGroupMessages
  rw [List.length_reverse, List.length_take, sortGByDescCreated_length]

theorem selectGroupMessages_sound (s : GroupState) (gid : GroupId)
    (limit : Nat) :
    ∀ m ∈ selectGroupMessages s gid limit, m ∈ groupRows s gid := by
  intro m hm
  unfold selectGroupMessages at hm
  rw [List.mem_reverse] at hm
  exact sortGByDescCreated_mem (List.take_subset _ _ hm)

theorem selectGroupMessages_newest (s : GroupState) (gid : GroupId)
    (limit : Nat) :
    ∀ m ∈ selectGroupMessages s gid limit, ∀ m' ∈ groupRows s gid,
      m' ∉ selectGroupMessages s gid limit → m'.createdAt ≤ m.createdAt := by
  intro m hm m' hm' hnot
  unfold selectGroupMessages at hm hnot
  rw [List.mem_reverse] at hm
  rw [List.mem_reverse] at hnot
  exact take_newest _ limit (sortGByDescCreated_pairwise _) hm
    (mem_sortGByDescCreated_of_mem hm') hnot

/-- Claim C7 (amended): the authenticated listing returns at most the raw
requested `limit` messages — there is no clamp at 100 on that route (see
the counterexample `authenticated_listing_has_no_clamp`) — and the
returned messages are exactly the newest ones of the group reordered
chronologically: the list is ascending in `createdAt`, drawn from the
group's rows, of length `min limit rows`, and any group message left out
is no newer than every returned one; the clamp at 100 exists only on the
unauthenticated observer route. -/
theorem listing_limits_and_order (s : GroupState) (gid : GroupId)
    (actor : AgentId) (limit : Nat) (limitParam : Option Nat)
    (hmem : isMember s gid actor = true) :
    (∃ l, listGroupMessages s gid actor limit = .ok 200 l
      ∧ l.length ≤ limit
      ∧ l.length = min limit (groupRows s gid).length
      ∧ l.Pairwise (fun p q => p.createdAt ≤ q.createdAt)
      ∧ (∀ m ∈ l, m ∈ groupRows s gid)
      ∧ (∀ m ∈ l, ∀ m' ∈ groupRows s gid, m' ∉ l →
          m'.createdAt ≤ m.createdAt))
    ∧ (∀ l, observerListMessages s gid limitParam = .ok 200 l →
        l.length ≤ 100) := by
  constructor
  · refine ⟨selectGroupMessages s gid limit, ?_, ?_, ?_, ?_, ?_, ?_⟩
    · simp [listGroupMessages, hmem]
    · exact selectGroupMessages_length_le s gid limit
    · exact selectGroupMessages_length s gid limit
    · exact selectGroupMessages_sorted s gid limit
    · exact selectGroupMessages_sound s gid limit
    · exact selectGroupMessages_newest s gid limit
  · intro l hl
    simp only [observerListMessages] at hl
    cases hg : s.groups.find? (fun g => g.id = gid && g.isPublic) with
    | none => rw [hg] at hl; cases hl
    | some g =>
        rw [hg] at hl
        injection hl with h1 h2
        subst h2
        exact le_trans (selectGroupMessages_length_le _ _ _) (min_le_right _ _)

/-- Witness for `listing_limits_and_order` at the concrete store with 101
messages and the default limit 50. -/
theorem listing_limits_and_order_witness :
    isMember manyMsgGroupState "g" "a" = true
    ∧ ∃ l, listGroupMessages manyMsgGroupState "g" "a" 50 = .ok 200 l
        ∧ l.length ≤ 50
        ∧ l.length = min 50 (groupRows manyMsgGroupState "g").length
        ∧ l.Pairwise (fun p q => p.createdAt ≤ q.createdAt)
        ∧ (∀ m ∈ l, m ∈ groupRows manyMsgGroupState "g")
        ∧ (∀ m ∈ l, ∀ m' ∈ groupRows manyMsgGroupState "g", m' ∉ l →
            m'.createdAt ≤ m.createdAt) :=
  ⟨by decide,
    (listing_limits_and_order manyMsgGroupState "g" "a" 50 none (by decide)).1⟩

/-- Claim C8 (amended): the group send handler performs no `replyToId`
validation — for a member with non-empty content it succeeds and inserts
the row with `replyToId` taken verbatim, even when it references a message
of another group or no message at all (see the counterexample
`groupSend_accepts_foreign_reply`); only the DM send validates the reply
target, failing with 404 (absent) or 400 (other conversation) and
inserting no message row. -/
theorem replyTo_validated_only_for_dms (s : GroupState) (now : Nat)
    (newId : MsgId) (gid : GroupId) (aid : AgentId) (content : String)
    (rid : Option MsgId)
    (hc : jsTrim content ≠ "") (hmem : isMember s gid aid = true) :
    ((sendGroupMessage s now newId gid aid content rid).1
        = .ok 201 ⟨newId, gid, aid, jsTrim content, rid, now⟩
      ∧ (sendGroupMessage s now newId gid aid content rid).2.1.messages
        = s.messages ++ [⟨newId, gid, aid, jsTrim content, rid, now⟩])
    ∧ (∀ (ds : DMStore) (n2 : Nat) (did : MsgId) (a b : AgentId)
        (c2 : String) (r : MsgId),
        jsTrim c2 ≠ "" → ds.agents.contains b = true → b ≠ a →
        isBlocked ds b a = false →
        (∀ msg, ds.directMessages.find? (fun m => m.id = r) = some msg →
          ¬((msg.fromAgentId = a ∧ msg.toAgentId = b)
            ∨ (msg.fromAgentId = b ∧ msg.toAgentId = a))) →
        ((sendDM ds n2 did a b c2 (some r)).1
            = .err 404 "Reply message not found"
          ∨ (sendDM ds n2 did a b c2 (some r)).1
            = .err 400 "Can only reply to messages in this conversation")
        ∧ (sendDM ds n2 did a b c2 (some r)).2.1.directMessages
            = ds.directMessages) := by
  constructor
  · constructor
    · simp [sendGroupMessage, hc, hmem]
    · simp [sendGroupMessage, hc, hmem]
  · intro ds n2 did a b c2 r hc2 hex2 hne2 hb2 hbad
    have hmem2 : b ∈ ds.agents := by simpa using hex2
    cases hf : ds.directMessages.find? (fun m => m.id = r) with
    | none =>
        have hf' : (getOrCreateConversation ds a b).2.directMessages.find?
            (fun m => m.id = r) = none := by
          rw [getOrCreate_directMessages]
          exact hf
        constructor
        · exact Or.inl (by
            simp [sendDM, hc2, hmem2, hne2, hb2, hf'])
        · simp [sendDM, hc2, hmem2, hne2, hb2, hf, hf', getOrCreate_directMessages]
    | some msg =>
        have hf' : (getOrCreateConversation ds a b).2.directMessages.find?
            (fun m => m.id = r) = some msg := by
          rw [getOrCreate_directMessages]
          exact hf
        have hprop := hbad msg hf
        have hcb : ((msg.fromAgentId = a && msg.toAgentId = b)
            || (msg.fromAgentId = b && msg.toAgentId = a)) = false := by
          cases hcb : ((msg.fromAgentId = a && msg.toAgentId = b)
              || (msg.fromAgentId = b && msg.toAgentId = a)) with
          | false => rfl
          | true =>
              exfalso
              apply hprop
              simpa using hcb
        constructor
        · exact Or.inr (by
            simp [sendDM, hc2, hmem2, hne2, hb2, hf', hcb])
        · simp [sendDM, hc2, hmem2, hne2, hb2, hf, hf', hcb,
            getOrCreate_directMessages]

/-- Witness for `replyTo_validated_only_for_dms`: member `"a"` of group
`"g1"` sends with no reply target and the row is inserted verbatim. -/
theorem replyTo_validated_witness :
    isMember twoGroupState "g1" "a" = true
    ∧ (sendGroupMessage twoGroupState 10 "m9" "g1" "a" "hi" none).1
        = .ok 201 ⟨"m9", "g1", "a", jsTrim "hi", none, 10⟩ :=
  ⟨by decide,
    ((replyTo_validated_only_for_dms twoGroupState 10 "m9" "g1" "a" "hi" none
      (by decide) (by decide)).1).1⟩

/-- Claim C1 is false as stated: the leave handler has no last-admin
guard, so the sole admin of a freshly created group can leave, leaving an
undeleted group with zero admin members. -/
theorem soleAdmin_can_leave :
    (leaveGroup createdGroupState "g1" "a").1 = .ok 200 ()
    ∧ ((leaveGroup createdGroupState "g1" "a").2.1.groups.any
        (fun g => g.id = "g1")) = true
    ∧ ((leaveGroup createdGroupState "g1" "a").2.1.members.any
        (fun m => m.groupId = "g1" && m.role = Role.admin)) = false := by
  decide

theorem getOrCreate_preserves_order (s : DMStore) (a b : AgentId)
    (h : convPairsOrdered s) :
    convPairsOrdered (getOrCreateConversation s a b).2 := by
  cases hf : findConversation s (canonPair a b).1 (canonPair a b).2 with
  | some c =>
      intro r hr
      have hr' : r ∈ s.conversations := by
        simpa [getOrCreateConversation, hf] using hr
      exact h r hr'
  | none =>
      intro r hr
      have hr' : r ∈ s.conversations ++
          [newConversation (canonPair a b).1 (canonPair a b).2] := by
        simpa [getOrCreateConversation, hf] using hr
      simp only [List.mem_append, List.mem_singleton] at hr'
      rcases hr' with hr' | rfl
      · exact h r hr'
      · exact canonPair_not_lt a b

theorem updateConversation_preserves_order (s : DMStore) (c c' : DMConversation)
    (h : convPairsOrdered s)
    (h1 : c'.agent1Id = c.agent1Id) (h2 : c'.agent2Id = c.agent2Id)
    (hc : strLt c.agent2Id c.agent1Id = false) :
    convPairsOrdered (updateConversation s c c') := by
  intro r hr
  have hr' : r ∈ s.conversations.map (fun x =>
      if x.agent1Id = c.agent1Id && x.agent2Id = c.agent2Id then c' else x) := hr
  simp only [List.mem_map] at hr'
  obtain ⟨r₀, hr₀, heq⟩ := hr'
  by_cases hcond : (r₀.agent1Id = c.agent1Id && r₀.agent2Id = c.agent2Id) = true
  · rw [← heq]
    simp only [hcond, if_true]
    rw [h1, h2]
    exact hc
  · rw [← heq]
    simp only [Bool.not_eq_true] at hcond
    simp only [hcond]
    have : (if false = true then c' else r₀) = r₀ := if_neg Bool.false_ne_true
    rw [this]
    exact h r₀ hr₀

theorem sendDM_conversations (s : DMStore) (now : Nat) (nid : MsgId)
    (a b : AgentId) (content : String) (rid : Option MsgId) :
    (sendDM s now nid a b content rid).2.1.conversations = s.conversations
    ∨ (sendDM s now nid a b content rid).2.1.conversations
        = (getOrCreateConversation s a b).2.conversations := by
  cases rid with
  | none =>
      simp only [sendDM]
      split
      · exact Or.inl rfl
      split
      · exact Or.inl rfl
      split
      · exact Or.inl rfl
      split
      · exact Or.inl rfl
      exact Or.inr rfl
  | some r =>
      simp only [sendDM]
      split
      · exact Or.inl rfl
      split
      · exact Or.inl rfl
      split
      · exact Or.inl rfl
      split
      · exact Or.inl rfl
      split
      · exact Or.inr rfl
      split
      · exact Or.inr rfl
      · exact Or.inr rfl

/-- Claim C4 (amended): every DMConversation row that the DM operations
create or keep satisfies the canonical non-decreasing order
`¬(agent2Id < agent1Id)` — no reversed row ever exists — and for distinct
participants the fetched/created row is strictly ordered; but a
self-targeted request creates a row with equal participant ids (see the
counterexample `selfThread_creates_equal_pair`), so strict `<` does not
hold for every row. -/
theorem conversationPairs_canonical (s : DMStore) (h : convPairsOrdered s) :
    (∀ a b now limit, convPairsOrdered (listDM s now a b limit).2)
    ∧ (∀ now nid a b content rid,
        convPairsOrdered (sendDM s now nid a b content rid).2.1)
    ∧ (∀ now a b, convPairsOrdered (clearConversation s now a b).2.1)
    ∧ (∀ a b t, convPairsOrdered (setDisappear s a b t).store)
    ∧ (∀ a b, a ≠ b →
        strLt (getOrCreateConversation s a b).1.agent1Id
          (getOrCreateConversation s a b).1.agent2Id = true) := by
  have horder : ∀ a b : AgentId,
      strLt (getOrCreateConversation s a b).1.agent2Id
        (getOrCreateConversation s a b).1.agent1Id = false := by
    intro a b
    obtain ⟨-, hf1, hf2⟩ := getOrCreate_found s a b
    rw [hf1, hf2]
    exact canonPair_not_lt a b
  refine ⟨?_, ?_, ?_, ?_, ?_⟩
  · intro a b now limit
    intro r hr
    exact getOrCreate_preserves_order s a b h r hr
  · intro now nid a b content rid
    rcases sendDM_conversations s now nid a b content rid with hc | hc
    · intro r hr
      rw [show ((sendDM s now nid a b content rid).2.1.conversations : List DMConversation)
          = s.conversations from hc] at hr
      exact h r hr
    · intro r hr
      rw [show ((sendDM s now nid a b content rid).2.1.conversations : List DMConversation)
          = (getOrCreateConversation s a b).2.conversations from hc] at hr
      exact getOrCreate_preserves_order s a b h r hr
  · intro now a b
    have hpres := getOrCreate_preserves_order s a b h
    have hupd := updateConversation_preserves_order
      (getOrCreateConversation s a b).2
      (getOrCreateConversation s a b).1
    cases hab : strLt a b with
    | true =>
        intro r hr
        have hr' : r ∈ (updateConversation (getOrCreateConversation s a b).2
            (getOrCreateConversation s a b).1
            { (getOrCreateConversation s a b).1 with
              agent1ClearedAt := some now }).conversations := by
          simpa [clearConversation, hab] using hr
        exact hupd { (getOrCreateConversation s a b).1 with
          agent1ClearedAt := some now } hpres rfl rfl (horder a b) r hr'
    | false =>
        intro r hr
        have hr' : r ∈ (updateConversation (getOrCreateConversation s a b).2
            (getOrCreateConversation s a b).1
            { (getOrCreateConversation s a b).1 with
              agent2ClearedAt := some now }).conversations := by
          simpa [clearConversation, hab] using hr
        exact hupd { (getOrCreateConversation s a b).1 with
          agent2ClearedAt := some now } hpres rfl rfl (horder a b) r hr'
  · intro a b t
    have hpres := getOrCreate_preserves_order s a b h
    have hupd := updateConversation_preserves_order
      (getOrCreateConversation s a b).2
      (getOrCreateConversation s a b).1
    simp only [setDisappear]
    split
    · exact hupd _ hpres rfl rfl (horder a b)
    split
    · split
      · exact hupd _ hpres rfl rfl (horder a b)
      · exact hupd _ hpres rfl rfl (horder a b)
    · exact hupd _ hpres rfl rfl (horder a b)
  · intro a b hab
    obtain ⟨-, hf1, hf2⟩ := getOrCreate_found s a b
    rw [hf1, hf2]
    exact canonPair_lt_of_ne hab

/-- Witness for `conversationPairs_canonical`: clearing the (fresh)
conversation between distinct agents `"a"` and `"b"` keeps every stored
pair canonically ordered. -/
theorem conversationPairs_canonical_witness :
    convPairsOrdered soloDMStore
    ∧ convPairsOrdered (clearConversation soloDMStore 5 "a" "b").2.1 :=
  ⟨by decide,
    (conversationPairs_canonical soloDMStore (by decide)).2.2.1 5 "a" "b"⟩

/-- Claim C1 (amended): on reachable states (memberships unique per
`(group, agent)` pair, every group has an admin), group creation, join,
member removal and role change all preserve the at-least-one-admin
invariant — the removal and role-change guards can never touch an admin —
but the leave operation does not preserve it (see the counterexample
`soleAdmin_can_leave`). -/
theorem admin_invariant_preserved_except_leave (s : GroupState)
    (huniq : membersUnique s) (hadm : groupsHaveAdmin s) :
    (∀ gid aid name desc pub,
       groupsHaveAdmin (createGroup s gid aid name desc pub).2.1)
    ∧ (∀ gid aid, groupsHaveAdmin (joinGroup s gid aid).2.1)
    ∧ (∀ gid actor target,
       groupsHaveAdmin (removeMember s gid actor target).2.1)
    ∧ (∀ gid actor target newRole,
       groupsHaveAdmin (setMemberRole s gid actor target newRole).2.1) := by
  refine ⟨?_, ?_, ?_, ?_⟩
  · intro gid aid name desc pub
    by_cases hname : name = ""
    · simp [createGroup, hname]; exact hadm
    · cases hslug : s.groups.any (fun g => g.slug = slugify name) with
      | true => simp [createGroup, hname, hslug]; exact hadm
      | false =>
          have hgoal : (createGroup s gid aid name desc pub).2.1 =
              { s with
                groups := s.groups ++ [⟨gid, name, slugify name, desc, pub, aid⟩]
                members := s.members ++ [⟨gid, aid, .admin⟩] } := by
            simp [createGroup, hname, hslug]
          rw [hgoal]
          intro g' hg'
          simp only [List.mem_append, List.mem_singleton] at hg'
          rcases hg' with hg' | rfl
          · obtain ⟨m, hm, h1, h2⟩ := hadm g' hg'
            exact ⟨m, by simp [List.mem_append, hm], h1, h2⟩
          · refine ⟨⟨gid, aid, .admin⟩, ?_, rfl, rfl⟩
            simp [List.mem_append]
  · intro gid aid
    cases hex : s.groups.any (fun g => g.id = gid) with
    | false => simp [joinGroup, hex]; exact hadm
    | true =>
        cases hmem : isMember s gid aid with
        | true => simp [joinGroup, hex, hmem]; exact hadm
        | false =>
            have hgoal : (joinGroup s gid aid).2.1 =
                { s with members := s.members ++ [⟨gid, aid, .member⟩] } := by
              simp [joinGroup, hex, hmem]
            rw [hgoal]
            intro g' hg'
            obtain ⟨m, hm, h1, h2⟩ := hadm g' hg'
            exact ⟨m, by simp [List.mem_append, hm], h1, h2⟩
  · intro gid actor target
    by_cases h0 : target = actor
    · simp [removeMember, h0]; exact hadm
    · cases hal : (checkGroupPermission s gid actor .removeMembers).allowed with
      | false => simp [removeMember, h0, hal]; exact hadm
      | true =>
          cases hmr : getMemberRole s gid target with
          | none => simp [removeMember, h0, hal, hmr]; exact hadm
          | some targetRole =>
              cases hcan : canModifyRole
                  ((checkGroupPermission s gid actor .removeMembers).userRole.getD .member)
                  targetRole with
              | false => simp [removeMember, h0, hal, hmr, hcan]; exact hadm
              | true =>
                  have hgoal : (removeMember s gid actor target).2.1 =
                      { s with members := s.members.filter (fun m =>
                          !(m.groupId = gid && m.agentId = target)) } := by
                    simp [removeMember, h0, hal, hmr, hcan]
                  rw [hgoal]
                  intro g' hg'
                  obtain ⟨m, hm, h1, h2⟩ := hadm g' hg'
                  have hnot : ¬(m.groupId = gid ∧ m.agentId = target) := by
                    rintro ⟨e1', e2'⟩
                    obtain ⟨m₀, hm₀, e1, e2, e3⟩ := getMemberRole_mem hmr
                    have heq := huniq m hm m₀ hm₀ (by rw [e1', e1]) (by rw [e2', e2])
                    have hrole : m.role = targetRole := by rw [heq, e3]
                    exact canModifyRole_target_ne_admin hcan (hrole.symm.trans h2)
                  have hcond : (m.groupId = gid && m.agentId = target) = false := by
                    by_cases hgid : m.groupId = gid
                    · by_cases haid : m.agentId = target
                      · exact absurd ⟨hgid, haid⟩ hnot
                      · simp [haid]
                    · simp [hgid]
                  refine ⟨m, List.mem_filter.mpr ⟨hm, ?_⟩, h1, h2⟩
                  simp [hcond]
  · intro gid actor target newRole
    by_cases h0 : target = actor
    · simp [setMemberRole, h0]; exact hadm
    · cases hal : (checkGroupPermission s gid actor .setRoles).allowed with
      | false => simp [setMemberRole, h0, hal]; exact hadm
      | true =>
          cases hmr : getMemberRole s gid target with
          | none => simp [setMemberRole, h0, hal, hmr]; exact hadm
          | some targetRole =>
              cases hcan : canModifyRole
                  ((checkGroupPermission s gid actor .setRoles).userRole.getD .member)
                  targetRole with
              | false => simp [setMemberRole, h0, hal, hmr, hcan]; exact hadm
              | true =>
                  cases hcan2 : canModifyRole
                      ((checkGroupPermission s gid actor .setRoles).userRole.getD .member)
                      newRole with
                  | false => simp [setMemberRole, h0, hal, hmr, hcan, hcan2]; exact hadm
                  | true =>
                      have hgoal : (setMemberRole s gid actor target newRole).2.1 =
                          { s with members := s.members.map (fun m =>
                              if m.groupId = gid && m.agentId = target then
                                { m with role := newRole } else m) } := by
                        simp [setMemberRole, h0, hal, hmr, hcan, hcan2]
                      rw [hgoal]
                      intro g' hg'
                      obtain ⟨m, hm, h1, h2⟩ := hadm g' hg'
                      have hnot : ¬(m.groupId = gid ∧ m.agentId = target) := by
                        rintro ⟨e1', e2'⟩
                        obtain ⟨m₀, hm₀, e1, e2, e3⟩ := getMemberRole_mem hmr
                        have heq := huniq m hm m₀ hm₀ (by rw [e1', e1]) (by rw [e2', e2])
                        have hrole : m.role = targetRole := by rw [heq, e3]
                        exact canModifyRole_target_ne_admin hcan (hrole.symm.trans h2)
                      have hcond : (m.groupId = gid && m.agentId = target) = false := by
                        by_cases hgid : m.groupId = gid
                        · by_cases haid : m.agentId = target
                          · exact absurd ⟨hgid, haid⟩ hnot
                          · simp [haid]
                        · simp [hgid]
                      have hfix : (if m.groupId = gid && m.agentId = target then
                          { m with role := newRole } else m) = m := by
                        simp [hcond]
                      refine ⟨m, ?_, h1, h2⟩
                      exact List.mem_map.mpr ⟨m, hm, hfix⟩

/-- Witness for `admin_invariant_preserved_except_leave`: in the concrete
two-member group the admin `"a"` removes member `"b"` and the group keeps
an admin. -/
theorem admin_invariant_preserved_witness :
    membersUnique twoMemberGroupState ∧ groupsHaveAdmin twoMemberGroupState
    ∧ groupsHaveAdmin (removeMember twoMemberGroupState "g" "a" "b").2.1 :=
  ⟨by decide, by decide,
    (admin_invariant_preserved_except_leave twoMemberGroupState
      (by decide) (by decide)).2.2.1 "g" "a" "b"⟩

/-- Claim C7 is false as stated: the authenticated listing applies the raw
`limit` with no clamp: a member requesting 101 messages from a group with
101 messages receives 101 of them, exceeding `min(limit, 100) = 100`. -/
theorem authenticated_listing_has_no_clamp :
    listGroupMessages manyMsgGroupState "g" "a" 101 =
      .ok 200 (selectGroupMessages manyMsgGroupState "g" 101)
    ∧ (selectGroupMessages manyMsgGroupState "g" 101).length = 101
    ∧ ¬((selectGroupMessages manyMsgGroupState "g" 101).length ≤ min 101 100) := by
  refine ⟨rfl, by decide, by decide⟩

/-- Claim C8 is false as stated: the group send handler performs no
`replyToId` validation, so a member of `g1` can send a message whose
`replyToId` references `m2`, a message of `g2`; the operation succeeds and
the row is inserted. -/
theorem groupSend_accepts_foreign_reply :
    (sendGroupMessage twoGroupState 10 "m3" "g1" "a" "hi" (some "m2")).1 =
      .ok 201 ⟨"m3", "g1", "a", "hi", some "m2", 10⟩
    ∧ ((sendGroupMessage twoGroupState 10 "m3" "g1" "a" "hi"
          (some "m2")).2.1.messages.any
        (fun m => m.id = "m3" && m.replyToId = some "m2")) = true
    ∧ (twoGroupState.messages.any
        (fun m => m.id = "m2" && m.groupId ≠ "g1")) = true := by
  decide

end Clawlink
